import Mathlib

/-!
Verification development for the automatic blog generator pipeline.

The definitions below are a shallow embedding of the repository's topic
tracker (`run_full_pipeline` in `main.py`, from the point where the topic
status file is loaded) and of the generation components
(`guidelines/generator.py`, `blogs/generator.py`, `topics/generator.py`,
`topics/new_topics_generator.py`, `images/generator.py`).

External effects are modelled explicitly:
  * the filesystem is a map from paths to a file state
    (absent / unreadable / readable content);
  * every external generation call is an oracle that either raises an
    exception or returns a value (`CallRes`);
  * each call to `save_json(status_file, topic_status)` is recorded as a
    `persist` event carrying the whole state, and every external call is
    recorded as a call event carrying the state at the moment of the call,
    so temporal claims about persistence and stage attempts can be stated
    over the run's trace.
-/

set_option maxHeartbeats 1000000

namespace AutoBlog

/-- Result of invoking a Python function, seen from its caller: the call
either raises an exception or returns a value. -/
inductive CallRes (α : Type) where
  | raised : CallRes α
  | ok (a : α) : CallRes α
  deriving Repr, DecidableEq

/-- One tracker entry, the result of `ensure_status_entry` in `main.py`
(all keys present with their defaults filled in). -/
structure WorkItem where
  title : String
  keyword : String
  guideline_generated : Bool
  blog_generated : Bool
  images_generated : Bool
  guideline_path : String
  blog_path : String
  images : List String
  deriving Repr, DecidableEq, Inhabited

/-- One raw entry of the persisted status JSON file before
`ensure_status_entry` runs: any key may be missing. -/
structure RawItem where
  title : Option String
  keyword : Option String
  guideline_generated : Option Bool
  blog_generated : Option Bool
  images_generated : Option Bool
  guideline_path : Option String
  blog_path : Option String
  images : Option (List String)
  deriving Repr, DecidableEq

/-- Shapes a raw topic entry can take, as accepted by
`normalize_topic_item` in `main.py`: a dict (with optional `title`,
`name`, `keyword`, `keywords` keys) or a bare string. -/
inductive TopicItem where
  | dict (title name keyword keywords : Option String) : TopicItem
  | str (s : String) : TopicItem
  deriving Repr, DecidableEq

/-- The two fields `normalize_topic_item` returns. -/
structure TopicFields where
  title : String
  keyword : String
  deriving Repr, DecidableEq

/-- State of one path on disk. -/
inductive FileState where
  | absent : FileState
  | unreadable : FileState
  | content (s : String) : FileState
  deriving Repr, DecidableEq

/-- The filesystem, as a map from paths to file states. -/
def FS : Type := String → FileState

/-- Writing a file makes that path readable with the written content and
leaves every other path unchanged. -/
def fsWrite (fs : FS) (path text : String) : FS :=
  fun q => if q = path then FileState.content text else fs q

/-- Whether a path currently holds readable content. -/
def readableAt (fs : FS) (path : String) : Prop :=
  ∃ c, fs path = FileState.content c

/-- What `load_json(status_file, default=[])` can see: the file may be
absent, may exist but fail to parse as JSON, or may parse to a list of
raw entries. -/
inductive StatusLoad where
  | absent : StatusLoad
  | corrupt : StatusLoad
  | parsed (items : List RawItem) : StatusLoad
  deriving Repr, DecidableEq

/-- `load_json` for the status file: returns the default empty list both
when the file is absent and when its contents fail to parse
(`main.py` lines 21-31). -/
def loadStatus : StatusLoad → List RawItem
  | StatusLoad.parsed items => items
  | _ => []

/-- The external collaborators of the tracker: the initial filesystem,
the two optional legacy topic files, and the four generation calls.
Each generation oracle takes a global call counter so repeated calls may
return different results. -/
structure Ext where
  fs0 : FS
  topicsFileExists : Bool
  topicsFileItems : List TopicItem
  allTopicsFileExists : Bool
  allTopicsFileItems : List TopicItem
  genGuideline : Nat → String → String → CallRes String
  genBlog : Nat → String → String → Option String → CallRes String
  genImages : Nat → String → String → CallRes (List String)
  proposeTopics : Nat → CallRes (List TopicItem)

/-- The whole environment of one run: the persisted status file plus the
external collaborators. -/
structure Env where
  statusLoad : StatusLoad
  ext : Ext

/-- Observable events of a run, in order.  Call events record the item
being processed (by its index and value) and the whole in-memory state at
the moment of the call; `persist` records each `save_json(status_file, _)`
with the full snapshot it writes. -/
inductive Event where
  | guidelineCall (j : Nat) (item : WorkItem) (stateAt : List WorkItem) : Event
  | drafterCall (j : Nat) (item : WorkItem) (stateAt : List WorkItem) : Event
  | imagesCall (j : Nat) (item : WorkItem) (stateAt : List WorkItem) : Event
  | proposerCall (stateAt : List WorkItem) : Event
  | persist (snapshot : List WorkItem) : Event
  deriving Repr, DecidableEq

/-- The running state of one pipeline invocation: the in-memory
`topic_status` list, the filesystem, the external-call counter and the
trace of events so far. -/
structure RunSt where
  status : List WorkItem
  fs : FS
  ctr : Nat
  trace : List Event

/-! ### String helpers (`utils/slugify.py` and Python `str.strip`) -/

/-- Python `str.strip()` on the character list: drop trailing and leading
whitespace. -/
def stripWs (cs : List Char) : List Char :=
  (cs.rdropWhile Char.isWhitespace).dropWhile Char.isWhitespace

/-- Python `str.strip()`. -/
def pyStrip (s : String) : String :=
  String.mk (stripWs s.data)

/-- Python `str.lower()` (ASCII case folding, applied characterwise). -/
def pyLower (s : String) : String :=
  String.mk (s.data.map Char.toLower)

/-- Normalized title used for all duplicate checks: Python
`title.strip().lower()`. -/
def normTitle (s : String) : String :=
  pyLower (pyStrip s)

/-- Characters kept by `safe_slug`: `[a-z0-9\s-]` after lowercasing. -/
def slugKeep (c : Char) : Bool :=
  c.isLower || c.isDigit || c.isWhitespace || c == '-'

/-- Replace each maximal whitespace run by a single underscore
(`re.sub(r"\s+", "_", text)`).  The flag says whether we are inside a
whitespace run. -/
def collapseWs : List Char → Bool → List Char
  | [], _ => []
  | c :: rest, inRun =>
    if c.isWhitespace then
      (if inRun then [] else ['_']) ++ collapseWs rest true
    else
      c :: collapseWs rest false

/-- Drop underscores from both ends (`text.strip("_")`). -/
def stripUnderscores (cs : List Char) : List Char :=
  ((cs.dropWhile (fun c => c == '_')).reverse.dropWhile (fun c => c == '_')).reverse

/-- `safe_slug` from `utils/slugify.py`: lowercase and strip, replace `&`
by `and`, drop characters outside `[a-z0-9\s-]`, turn whitespace runs into
underscores, cut to 80 characters, strip underscores. -/
def safe_slug (text : String) : String :=
  let t := (pyStrip (pyLower text)).replace "&" "and"
  let kept := t.data.filter slugKeep
  String.mk (stripUnderscores ((collapseWs kept false).take 80))

/-! ### Helpers from `main.py` -/

/-- `ensure_status_entry` from `main.py` lines 141-150: fill in all
missing keys with their defaults. -/
def ensure_status_entry (t : RawItem) : WorkItem :=
  { title := t.title.getD ""
    keyword := t.keyword.getD ""
    guideline_generated := t.guideline_generated.getD false
    blog_generated := t.blog_generated.getD false
    images_generated := t.images_generated.getD false
    guideline_path := t.guideline_path.getD ""
    blog_path := t.blog_path.getD ""
    images := t.images.getD [] }

/-- Python `a or b` for an optional string `a`: the empty string and a
missing key are both falsy. -/
def pyOrStr (a : Option String) (b : String) : String :=
  match a with
  | none => b
  | some s => if s = "" then b else s

/-- `normalize_topic_item` from `main.py` lines 68-82. -/
def normalize_topic_item : TopicItem → TopicFields
  | TopicItem.dict title name keyword keywords =>
    { title := pyStrip (pyOrStr title (pyOrStr name ""))
      keyword := pyOrStr keyword (pyOrStr keywords "") }
  | TopicItem.str s =>
    { title := pyStrip s, keyword := "" }

/-- A fully incomplete tracker entry for a fresh topic, as built by
`ensure_status_entry` over a dict holding only `title` and `keyword`. -/
def mkNewItem (title keyword : String) : WorkItem :=
  { title := title, keyword := keyword
    guideline_generated := false, blog_generated := false, images_generated := false
    guideline_path := "", blog_path := "", images := [] }

/-- The item at index `j` of the state (entries are always accessed within
bounds; out of bounds yields the default entry, whose flags are false). -/
def itemAt (s : List WorkItem) (j : Nat) : WorkItem :=
  s.getD j default

/-- The incompleteness test of `main.py` lines 155-158: an entry is
unfinished unless all three flags are set. -/
def is_unfinished (t : WorkItem) : Bool :=
  !(t.guideline_generated && t.blog_generated && t.images_generated)

/-- Indices of the unfinished entries, in state order. -/
def unfinishedIdxs (s : List WorkItem) : List Nat :=
  (List.range s.length).filter (fun j => is_unfinished (itemAt s j))

/-- Path of the guideline artifact written by `save_guideline_text`
(`guidelines/generator.py`), with `out_dir = "output/guidelines"`. -/
def guidelinePathFor (title : String) : String :=
  "output/guidelines/" ++ safe_slug title ++ "_guideline.txt"

/-- Path of the blog artifact written by `save_blog_md`
(`blogs/generator.py`), with `out_dir = "output/blogs"`. -/
def blogPathFor (title : String) : String :=
  "output/blogs/" ++ safe_slug title ++ "_blog.md"

/-- `save_guideline_text`: write the artifact and return its path. -/
def save_guideline_text (fs : FS) (text title : String) : FS × String :=
  (fsWrite fs (guidelinePathFor title) text, guidelinePathFor title)

/-- `save_blog_md`: write the artifact and return its path. -/
def save_blog_md (fs : FS) (text title : String) : FS × String :=
  (fsWrite fs (blogPathFor title) text, blogPathFor title)

/-- Reading a file guarded by `os.path.exists` and wrapped in
`try/except` that falls back to `None` (as in `main.py` lines 228-233 and
256-261): an empty path, a missing file and a failing read all give
`none`. -/
def tryReadSafe (fs : FS) (path : String) : Option String :=
  if path = "" then none
  else match fs path with
    | FileState.content s => some s
    | _ => none

/-- Reading a file guarded by `os.path.exists` but with no inner
`try/except` (as in `main.py` lines 267-270): an empty path and a missing
file are skipped (leaving `None`), but a failing read raises. -/
def tryReadRaising (fs : FS) (path : String) : CallRes (Option String) :=
  if path = "" then CallRes.ok none
  else match fs path with
    | FileState.absent => CallRes.ok none
    | FileState.unreadable => CallRes.raised
    | FileState.content s => CallRes.ok (some s)

/-- A bare `open(path).read()` with no guard (as in `main.py` lines
359-360 and 371-372): raises unless the path holds readable content. -/
def openRead (fs : FS) (path : String) : CallRes String :=
  if path = "" then CallRes.raised
  else match fs path with
    | FileState.content s => CallRes.ok s
    | _ => CallRes.raised

/-! ### Run-state combinators -/

/-- Append one event to the trace. -/
def emit (st : RunSt) (e : Event) : RunSt :=
  { st with trace := st.trace ++ [e] }

/-- Advance the external-call counter. -/
def bump (st : RunSt) : RunSt :=
  { st with ctr := st.ctr + 1 }

/-- `save_json(status_file, topic_status)`: record a persist event with
the full current state. -/
def persistNow (st : RunSt) : RunSt :=
  emit st (Event.persist st.status)

/-- Update the entry at index `j` and immediately persist the whole
state. -/
def commitItem (st : RunSt) (j : Nat) (ts : WorkItem) : RunSt :=
  persistNow { st with status := st.status.set j ts }

/-! ### Stage ladder over existing unfinished topics
(`main.py` lines 198-282) -/

/-- The tail of the blog stage: invoke the Article Drafter, and on a
non-empty result save the artifact, set the flag and persist
(`main.py` lines 238-248). -/
def blogCall (x : Ext) (st : RunSt) (j : Nat) (ts : WorkItem) (gtext : String) : RunSt :=
  let st1 := emit st (Event.drafterCall j ts st.status)
  match x.genBlog st1.ctr ts.title ts.keyword (some gtext) with
  | CallRes.raised => bump st1
  | CallRes.ok blog_md =>
    let st2 := bump st1
    if blog_md = "" then st2
    else
      let pr := save_blog_md st2.fs blog_md ts.title
      commitItem { st2 with fs := pr.1 } j
        { ts with blog_generated := true, blog_path := pr.2 }

/-- The tail of the images stage: invoke the Illustration Generator; on
any returned result set the flag, store non-empty metadata and persist
(`main.py` lines 274-280). -/
def imagesCallDo (x : Ext) (st : RunSt) (j : Nat) (ts : WorkItem) (blog_md : String) : RunSt :=
  let st1 := emit st (Event.imagesCall j ts st.status)
  match x.genImages st1.ctr ts.title blog_md with
  | CallRes.raised => bump st1
  | CallRes.ok meta =>
    commitItem (bump st1) j
      { ts with images_generated := true
                images := if meta.isEmpty then ts.images else meta }

/-- Guideline stage of the first ladder (`main.py` lines 203-219). -/
def guidelineStage1 (x : Ext) (st : RunSt) (j : Nat) : RunSt :=
  let ts := itemAt st.status j
  if ts.guideline_generated then st
  else
    let st1 := emit st (Event.guidelineCall j ts st.status)
    match x.genGuideline st1.ctr ts.title ts.keyword with
    | CallRes.raised => bump st1
    | CallRes.ok gtext =>
      let st2 := bump st1
      if gtext = "" then st2
      else
        let pr := save_guideline_text st2.fs gtext ts.title
        commitItem { st2 with fs := pr.1 } j
          { ts with guideline_generated := true, guideline_path := pr.2 }

/-- Blog stage of the first ladder (`main.py` lines 222-248): prefer the
saved guideline artifact; if it is missing or unreadable, regenerate the
guideline text (without saving it) before drafting. -/
def blogStage1 (x : Ext) (st : RunSt) (j : Nat) : RunSt :=
  let ts := itemAt st.status j
  if ts.guideline_generated && !ts.blog_generated then
    match tryReadSafe st.fs ts.guideline_path with
    | some gtext => blogCall x st j ts gtext
    | none =>
      let st1 := emit st (Event.guidelineCall j ts st.status)
      match x.genGuideline st1.ctr ts.title ts.keyword with
      | CallRes.raised => bump st1
      | CallRes.ok gtext => blogCall x (bump st1) j ts gtext
  else st

/-- Images stage of the first ladder (`main.py` lines 251-282): prefer
the saved blog artifact; if missing, regenerate the blog from the saved
guideline (that inner read has no `try/except`, so an unreadable
guideline file aborts the stage). -/
def imagesStage1 (x : Ext) (st : RunSt) (j : Nat) : RunSt :=
  let ts := itemAt st.status j
  if ts.blog_generated && !ts.images_generated then
    match tryReadSafe st.fs ts.blog_path with
    | some blog_md => imagesCallDo x st j ts blog_md
    | none =>
      match tryReadRaising st.fs ts.guideline_path with
      | CallRes.raised => st
      | CallRes.ok gOpt =>
        let st1 := emit st (Event.drafterCall j ts st.status)
        match x.genBlog st1.ctr ts.title ts.keyword gOpt with
        | CallRes.raised => bump st1
        | CallRes.ok blog_md => imagesCallDo x (bump st1) j ts blog_md
  else st

/-- Process one existing unfinished entry through the three stages.  Each
stage has its own `try/except`, so a failure in one stage still lets the
next stage's gate be evaluated. -/
def processItem1 (x : Ext) (st : RunSt) (j : Nat) : RunSt :=
  imagesStage1 x (blogStage1 x (guidelineStage1 x st j) j) j

/-- The first ladder: process each unfinished entry in order. -/
def runLadder1 (x : Ext) : RunSt → List Nat → RunSt
  | st, [] => st
  | st, j :: rest => runLadder1 x (processItem1 x st j) rest

/-! ### Stage ladder over newly appended topics
(`main.py` lines 341-381) -/

/-- Guideline step of the second ladder (`main.py` lines 345-354).  The
boolean is false when an exception aborts the rest of this item (the
second ladder has a single `try/except` around all three stages). -/
def newGuidelineStep (x : Ext) (st : RunSt) (j : Nat) : RunSt × Bool :=
  let ts := itemAt st.status j
  if ts.guideline_generated then (st, true)
  else
    let st1 := emit st (Event.guidelineCall j ts st.status)
    match x.genGuideline st1.ctr ts.title ts.keyword with
    | CallRes.raised => (bump st1, false)
    | CallRes.ok gtext =>
      let st2 := bump st1
      if gtext = "" then (st2, true)
      else
        let pr := save_guideline_text st2.fs gtext ts.title
        (commitItem { st2 with fs := pr.1 } j
          { ts with guideline_generated := true, guideline_path := pr.2 }, true)

/-- Blog step of the second ladder (`main.py` lines 356-367): the
guideline artifact is read with a bare `open`, so a missing or unreadable
artifact raises and aborts the item. -/
def newBlogStep (x : Ext) (st : RunSt) (j : Nat) : RunSt × Bool :=
  let ts := itemAt st.status j
  if ts.guideline_generated && !ts.blog_generated then
    match openRead st.fs ts.guideline_path with
    | CallRes.raised => (st, false)
    | CallRes.ok gtext =>
      let st1 := emit st (Event.drafterCall j ts st.status)
      match x.genBlog st1.ctr ts.title ts.keyword (some gtext) with
      | CallRes.raised => (bump st1, false)
      | CallRes.ok blog_md =>
        let st2 := bump st1
        if blog_md = "" then (st2, true)
        else
          let pr := save_blog_md st2.fs blog_md ts.title
          (commitItem { st2 with fs := pr.1 } j
            { ts with blog_generated := true, blog_path := pr.2 }, true)
  else (st, true)

/-- Images step of the second ladder (`main.py` lines 369-378). -/
def newImagesStep (x : Ext) (st : RunSt) (j : Nat) : RunSt × Bool :=
  let ts := itemAt st.status j
  if ts.blog_generated && !ts.images_generated then
    match openRead st.fs ts.blog_path with
    | CallRes.raised => (st, false)
    | CallRes.ok blog_md =>
      let st1 := emit st (Event.imagesCall j ts st.status)
      match x.genImages st1.ctr ts.title blog_md with
      | CallRes.raised => (bump st1, false)
      | CallRes.ok meta =>
        (commitItem (bump st1) j
          { ts with images_generated := true
                    images := if meta.isEmpty then ts.images else meta }, true)
  else (st, true)

/-- Process one newly appended entry: a single `try/except` wraps all
three stages, so the first exception skips the rest of the item. -/
def processItem2 (x : Ext) (st : RunSt) (j : Nat) : RunSt :=
  let r1 := newGuidelineStep x st j
  if r1.2 then
    let r2 := newBlogStep x r1.1 j
    if r2.2 then (newImagesStep x r2.1 j).1 else r2.1
  else r1.1

/-- The second ladder over the newly appended entries. -/
def runLadder2 (x : Ext) : RunSt → List Nat → RunSt
  | st, [] => st
  | st, j :: rest => runLadder2 x (processItem2 x st j) rest

/-! ### Migration, topic acceptance and the whole run -/

/-- Seed one fully incomplete entry per legacy topic entry
(`main.py` lines 163-180).  Note: no deduplication is performed here. -/
def seedFromLegacy (items : List TopicItem) : List WorkItem :=
  items.map (fun rt =>
    let nt := normalize_topic_item rt
    mkNewItem nt.title nt.keyword)

/-- The one-time migration (`main.py` lines 160-185): if the state is
empty, seed it from `topics_file`, else from `all_topics_file`, and
persist; otherwise leave it alone. -/
def migrationPhase (x : Ext) (st : RunSt) : RunSt :=
  if st.status.isEmpty then
    if x.topicsFileExists then
      persistNow { st with status := st.status ++ seedFromLegacy x.topicsFileItems }
    else if x.allTopicsFileExists then
      persistNow { st with status := st.status ++ seedFromLegacy x.allTopicsFileItems }
    else st
  else st

/-- `NUM_NEW_TOPICS` from `main.py` line 293. -/
def NUM_NEW_TOPICS : Nat := 2

/-- The normalized titles of the entries with a truthy title
(`main.py` line 296). -/
def existingTitles (s : List WorkItem) : List String :=
  (s.filter (fun t => t.title != "")).map (fun t => normTitle t.title)

/-- The acceptance filter for freshly proposed topics (`main.py` lines
307-316): walk the response in order, drop entries whose normalized title
is empty or already known, extend the known set with each accepted title,
and break as soon as `NUM_NEW_TOPICS` entries are accepted.  `count` is
the number of entries accepted so far. -/
def acceptTopics (existing : List String) (count : Nat) : List TopicItem → List TopicFields
  | [] => []
  | item :: rest =>
    let nt := normalize_topic_item item
    let tlc := pyLower nt.title
    if tlc = "" ∨ tlc ∈ existing then acceptTopics existing count rest
    else if count + 1 ≥ NUM_NEW_TOPICS then [nt]
    else nt :: acceptTopics (tlc :: existing) (count + 1) rest

/-- The accepted topics for a given state and raw proposer response. -/
def acceptedOf (s : List WorkItem) (raw : List TopicItem) : List TopicFields :=
  acceptTopics (existingTitles s) 0 raw

/-- The new-topics phase (`main.py` lines 291-381), reached only when no
unfinished entry remains: call the Topic Proposer once, filter the
response, append the accepted entries as fully incomplete items, persist,
and immediately run the second ladder over the unfinished (that is, the
newly appended) entries.  The proposer call is outside any `try/except`
that would catch its exceptions, so a raise aborts the run (boolean
false).  The writes of `all_topics_file` and `topics_file` at lines
333-335 touch neither the tracker state nor any artifact path and are not
modelled. -/
def newTopicsPhase (x : Ext) (st : RunSt) : RunSt × Bool :=
  let existing := existingTitles st.status
  let st1 := emit st (Event.proposerCall st.status)
  match x.proposeTopics st1.ctr with
  | CallRes.raised => (st1, false)
  | CallRes.ok raw =>
    let st2 := bump st1
    let acc := acceptTopics existing 0 raw
    if acc.isEmpty then (st2, true)
    else
      let st3 := persistNow
        { st2 with status := st2.status ++ acc.map (fun nt => mkNewItem nt.title nt.keyword) }
      (runLadder2 x st3 (unfinishedIdxs st3.status), true)

/-- The ensured initial state: the loaded status entries with defaults
filled in (`main.py` lines 138-152). -/
def ensuredInit (env : Env) : List WorkItem :=
  (loadStatus env.statusLoad).map ensure_status_entry

/-- The run state right after loading the status file. -/
def loadPhase (env : Env) : RunSt :=
  { status := ensuredInit env, fs := env.ext.fs0, ctr := 0, trace := [] }

/-- The run state after the one-time migration. -/
def afterMigration (env : Env) : RunSt :=
  migrationPhase env.ext (loadPhase env)

/-- The run state after the first ladder over the unfinished entries. -/
def afterLadder1 (env : Env) : RunSt :=
  let st := afterMigration env
  runLadder1 env.ext st (unfinishedIdxs st.status)

/-- The tracker portion of `run_full_pipeline` (`main.py` lines 137-387):
load, migrate, run the first ladder, recompute the unfinished set, and
only when it is empty run the new-topics phase.  The boolean is false
exactly when an uncaught exception aborted the run. -/
def run_full_pipeline (env : Env) : RunSt × Bool :=
  let st := afterLadder1 env
  if (unfinishedIdxs st.status).isEmpty then newTopicsPhase env.ext st
  else (st, true)

/-! ### Generation components (for the error contract)

These model the component functions themselves, as opposed to the
tracker's view of them.  Each takes its external calls as explicit
`CallRes` arguments. -/

/-- `generate_guideline_text` from `guidelines/generator.py`: the API
call sits in a `try/except` returning the empty string, and a returned
message content is stripped. -/
def generate_guideline_text (api : CallRes String) : CallRes String :=
  match api with
  | CallRes.raised => CallRes.ok ""
  | CallRes.ok content => CallRes.ok (pyStrip content)

/-- `generate_blog_from_guideline` from `blogs/generator.py`: same
error shape as the guideline generator. -/
def generate_blog_from_guideline (api : CallRes String) : CallRes String :=
  match api with
  | CallRes.raised => CallRes.ok ""
  | CallRes.ok content => CallRes.ok (pyStrip content)

/-- Result of `clean_and_parse_json` in `utils/json_utils.py`: an empty
dict for falsy input, the parsed list on success, or the tagged
`raw_output` wrapper on parse failure. -/
inductive TopicsResult where
  | parsedList (ts : List TopicItem) : TopicsResult
  | emptyDict : TopicsResult
  | rawWrapper (raw : String) : TopicsResult
  deriving Repr, DecidableEq

/-- `clean_and_parse_json`, with the fence-stripping JSON parser passed
in as `parse`: falsy input gives the empty dict, parse failure gives the
tagged wrapper holding the original output. -/
def clean_and_parse_json (parse : String → Option (List TopicItem)) (model_output : String) :
    TopicsResult :=
  if model_output = "" then TopicsResult.emptyDict
  else match parse model_output with
    | some ts => TopicsResult.parsedList ts
    | none => TopicsResult.rawWrapper model_output

/-- `generate_blog_topics` from `topics/generator.py`: the API call sits
in a `try/except` returning the empty list; a returned message is parsed
with `clean_and_parse_json` (which never raises). -/
def generate_blog_topics (parse : String → Option (List TopicItem)) (api : CallRes String) :
    CallRes TopicsResult :=
  match api with
  | CallRes.raised => CallRes.ok (TopicsResult.parsedList [])
  | CallRes.ok raw => CallRes.ok (clean_and_parse_json parse raw)

/-- `generate_images_for_blog` from `images/generator.py` with
`num_images = 1`: there is no `try/except` anywhere in its body, so a
raising generation call or download propagates to the caller; on success
it returns the per-topic image folder path. -/
def generate_images_for_blog (blog_title : String) (genImage : CallRes String)
    (download : String → CallRes String) : CallRes String :=
  match genImage with
  | CallRes.raised => CallRes.raised
  | CallRes.ok url =>
    match download url with
    | CallRes.raised => CallRes.raised
    | CallRes.ok _data => CallRes.ok ("output/images/" ++ safe_slug blog_title)

/-- `generate_new_topics` from `topics/new_topics_generator.py`: the API
call has no `try/except` at all, and a response that fails to parse as
JSON explicitly raises `ValueError("GPT returned invalid JSON.")`. -/
def generate_new_topics (api : CallRes String) (parse : String → Option (List TopicItem)) :
    CallRes (List TopicItem) :=
  match api with
  | CallRes.raised => CallRes.raised
  | CallRes.ok raw =>
    match parse raw with
    | some ts => CallRes.ok ts
    | none => CallRes.raised

/-! ### Spec-side predicates -/

/-- The state recorded at a call event (`none` for persist events). -/
def stateAtOf : Event → Option (List WorkItem)
  | Event.guidelineCall _ _ s => some s
  | Event.drafterCall _ _ s => some s
  | Event.imagesCall _ _ s => some s
  | Event.proposerCall s => some s
  | Event.persist _ => none

/-- The last persisted snapshot after one event. -/
def nextLast (last : List WorkItem) : Event → List WorkItem
  | Event.persist s => s
  | _ => last

/-- The last persisted snapshot after a trace (or the initial loaded
state when nothing was persisted yet). -/
def lastPersist (last : List WorkItem) : List Event → List WorkItem
  | [] => last
  | e :: rest => lastPersist (nextLast last e) rest

/-- Persist-before-attempt: at every external call event in the trace,
the state at that moment equals the last persisted snapshot, so every
completed stage transition was persisted before the next call was
attempted. -/
def Sync (last : List WorkItem) : List Event → Prop
  | [] => True
  | e :: rest =>
    (stateAtOf e = none ∨ stateAtOf e = some last) ∧ Sync (nextLast last e) rest

/-- Stage-monotonicity invariant of one entry: `blog_generated` implies
`guideline_generated`, and `images_generated` implies `blog_generated`. -/
def InvItem (t : WorkItem) : Prop :=
  (t.blog_generated = true → t.guideline_generated = true) ∧
  (t.images_generated = true → t.blog_generated = true)

/-- Stage-monotonicity invariant of a whole state. -/
def Inv (s : List WorkItem) : Prop :=
  ∀ t ∈ s, InvItem t

/-- Per-event observation soundness: persisted snapshots and call-time
states satisfy the invariant, the Article Drafter is only invoked on
items whose guideline flag is set, and the Illustration Generator only on
items whose blog flag is set. -/
def eventOK : Event → Prop
  | Event.guidelineCall _ _ s => Inv s
  | Event.drafterCall _ it s => it.guideline_generated = true ∧ Inv s
  | Event.imagesCall _ it s => it.blog_generated = true ∧ Inv s
  | Event.proposerCall s => Inv s
  | Event.persist s => Inv s

/-- Every event of the trace is observation-sound. -/
def TraceOK (tr : List Event) : Prop :=
  ∀ e ∈ tr, eventOK e

/-- Recognizer for the Topic Proposer call event. -/
def isProposerEv : Event → Bool
  | Event.proposerCall _ => true
  | _ => false

/-- Recognizer for a Guideline Expander call on the item at index `j`. -/
def isGCallAt (j : Nat) : Event → Bool
  | Event.guidelineCall k _ _ => k == j
  | _ => false

/-- Recognizer for an Article Drafter call on the item at index `j`. -/
def isDCallAt (j : Nat) : Event → Bool
  | Event.drafterCall k _ _ => k == j
  | _ => false

/-- Recognizer for an Illustration Generator call on the item at index
`j`. -/
def isICallAt (j : Nat) : Event → Bool
  | Event.imagesCall k _ _ => k == j
  | _ => false

/-! ### Basic lemmas about list access and the run state -/

theorem itemAt_nil (j : Nat) : itemAt [] j = default := by
  cases j <;> rfl

theorem itemAt_cons_succ (b : WorkItem) (s : List WorkItem) (k : Nat) :
    itemAt (b :: s) (k + 1) = itemAt s k := rfl

theorem itemAt_set_ne :
    ∀ (s : List WorkItem) (j k : Nat) (a : WorkItem), k ≠ j →
      itemAt (s.set j a) k = itemAt s k
  | [], _, _, _, _ => rfl
  | _ :: _, 0, 0, _, h => absurd rfl h
  | _ :: _, 0, _ + 1, _, _ => rfl
  | _ :: _, _ + 1, 0, _, _ => rfl
  | _ :: s, j + 1, k + 1, a, h =>
    itemAt_set_ne s j k a (fun hh => h (by omega))

theorem itemAt_set_self :
    ∀ (s : List WorkItem) (j : Nat) (a : WorkItem), j < s.length →
      itemAt (s.set j a) j = a
  | [], j, _, h => absurd h (by simp)
  | _ :: _, 0, _, _ => rfl
  | _ :: s, j + 1, a, h =>
    itemAt_set_self s j a (by simpa using h)

theorem set_itemAt_self :
    ∀ (s : List WorkItem) (j : Nat), s.set j (itemAt s j) = s
  | [], _ => by simp
  | _ :: _, 0 => rfl
  | b :: s, j + 1 => by
    show b :: s.set j (itemAt s j) = b :: s
    rw [set_itemAt_self s j]

theorem itemAt_append_left :
    ∀ (s t : List WorkItem) (j : Nat), j < s.length →
      itemAt (s ++ t) j = itemAt s j
  | [], _, j, h => absurd h (by simp)
  | _ :: _, _, 0, _ => rfl
  | _ :: s, t, j + 1, h =>
    itemAt_append_left s t j (by simpa using h)

theorem itemAt_mem :
    ∀ (s : List WorkItem) (j : Nat), j < s.length → itemAt s j ∈ s
  | [], j, h => absurd h (by simp)
  | _ :: _, 0, _ => List.mem_cons_self _ _
  | _ :: s, j + 1, h =>
    List.mem_cons_of_mem _ (itemAt_mem s j (by simpa using h))

theorem mem_unfinishedIdxs (s : List WorkItem) (j : Nat) :
    j ∈ unfinishedIdxs s ↔ j < s.length ∧ is_unfinished (itemAt s j) = true := by
  simp [unfinishedIdxs, List.mem_filter, List.mem_range]

theorem unfinishedIdxs_nodup (s : List WorkItem) : (unfinishedIdxs s).Nodup :=
  (List.nodup_range _).filter _

theorem Inv_set (s : List WorkItem) (j : Nat) (a : WorkItem)
    (hs : Inv s) (ha : InvItem a) : Inv (s.set j a) := by
  intro t ht
  rcases List.mem_or_eq_of_mem_set ht with h | h
  · exact hs t h
  · exact h ▸ ha

theorem Inv_append (s t : List WorkItem) (hs : Inv s) (ht : Inv t) :
    Inv (s ++ t) := by
  intro u hu
  rcases List.mem_append.mp hu with h | h
  · exact hs u h
  · exact ht u h

theorem TraceOK_append (a b : List Event) (ha : TraceOK a) (hb : TraceOK b) :
    TraceOK (a ++ b) := by
  intro e he
  rcases List.mem_append.mp he with h | h
  · exact ha e h
  · exact hb e h

theorem lastPersist_append (init : List WorkItem) :
    ∀ (a b : List Event), lastPersist init (a ++ b) = lastPersist (lastPersist init a) b := by
  intro a
  induction a generalizing init with
  | nil => intro b; rfl
  | cons e rest ih => intro b; exact ih (nextLast init e) b

theorem Sync_append (init : List WorkItem) :
    ∀ (a b : List Event), Sync init a → Sync (lastPersist init a) b → Sync init (a ++ b) := by
  intro a
  induction a generalizing init with
  | nil => intro b _ hb; exact hb
  | cons e rest ih =>
    intro b ha hb
    exact ⟨ha.1, ih (nextLast init e) b ha.2 hb⟩

/-- The combined sync invariant carried through the run: the trace is
persist-synchronous and the in-memory state equals the last persisted
snapshot. -/
def SyncInvP (init : List WorkItem) (st : RunSt) : Prop :=
  Sync init st.trace ∧ st.status = lastPersist init st.trace

theorem syncInv_extend (init : List WorkItem) (st st2 : RunSt) (es : List Event)
    (h : SyncInvP init st)
    (ht : st2.trace = st.trace ++ es)
    (hsync : Sync st.status es)
    (hst : st2.status = lastPersist st.status es) : SyncInvP init st2 := by
  refine ⟨?_, ?_⟩
  · rw [ht]
    exact Sync_append init st.trace es h.1 (h.2 ▸ hsync)
  · rw [ht, lastPersist_append, ← h.2, hst]

theorem itemAt_oob :
    ∀ (s : List WorkItem) (j : Nat), s.length ≤ j → itemAt s j = default
  | [], j, _ => itemAt_nil j
  | _ :: _, 0, h => absurd h (by simp)
  | _ :: s, j + 1, h => itemAt_oob s j (by simpa using h)

theorem InvItem_default : InvItem default := by
  constructor <;> intro h <;> simp [default] at h

theorem InvItem_itemAt (s : List WorkItem) (j : Nat) (hs : Inv s) :
    InvItem (itemAt s j) := by
  by_cases hj : j < s.length
  · exact hs _ (itemAt_mem s j hj)
  · rw [itemAt_oob s j (Nat.le_of_not_lt hj)]
    exact InvItem_default

theorem readableAt_fsWrite (fs : FS) (q t p : String) (h : readableAt fs p) :
    readableAt (fsWrite fs q t) p := by
  unfold readableAt fsWrite at *
  by_cases hpq : p = q
  · exact ⟨t, by simp [hpq]⟩
  · obtain ⟨c, hc⟩ := h
    exact ⟨c, by simp [hpq, hc]⟩

/-! ### Shape lemmas for the first-ladder stages -/

theorem guidelineStage1_skip (x : Ext) (st : RunSt) (j : Nat)
    (h : (itemAt st.status j).guideline_generated = true) :
    guidelineStage1 x st j = st := by
  unfold guidelineStage1
  simp [h]

theorem guidelineStage1_status (x : Ext) (st : RunSt) (j : Nat) :
    (guidelineStage1 x st j).status = st.status ∨
    ((itemAt st.status j).guideline_generated = false ∧
      (guidelineStage1 x st j).status = st.status.set j
        { itemAt st.status j with
            guideline_generated := true
            guideline_path := guidelinePathFor (itemAt st.status j).title }) := by
  unfold guidelineStage1
  dsimp only
  split
  · left; rfl
  · rename_i hflag
    split
    · left; rfl
    · rename_i a g heq
      split
      · left; rfl
      · rename_i hne
        right
        exact ⟨by simpa using hflag, rfl⟩

theorem guidelineStage1_trace (x : Ext) (st : RunSt) (j : Nat) :
    ∃ es, (guidelineStage1 x st j).trace = st.trace ++ es ∧
      ∀ e ∈ es,
        (e = Event.guidelineCall j (itemAt st.status j) st.status ∧
          (itemAt st.status j).guideline_generated = false) ∨
        e = Event.persist (guidelineStage1 x st j).status := by
  unfold guidelineStage1
  dsimp only
  split
  · exact ⟨[], by simp⟩
  · rename_i hflag
    split
    · refine ⟨[Event.guidelineCall j (itemAt st.status j) st.status], rfl, ?_⟩
      intro e he
      simp only [List.mem_singleton] at he
      exact Or.inl ⟨he, by simpa using hflag⟩
    · rename_i a g heq
      split
      · refine ⟨[Event.guidelineCall j (itemAt st.status j) st.status], rfl, ?_⟩
        intro e he
        simp only [List.mem_singleton] at he
        exact Or.inl ⟨he, by simpa using hflag⟩
      · rename_i hne
        refine ⟨[Event.guidelineCall j (itemAt st.status j) st.status,
          Event.persist (st.status.set j
            { itemAt st.status j with
                guideline_generated := true
                guideline_path := guidelinePathFor (itemAt st.status j).title })],
          by simp [commitItem, persistNow, emit, bump, save_guideline_text], ?_⟩
        intro e he
        simp only [List.mem_cons, List.mem_singleton, List.not_mem_nil, or_false] at he
        rcases he with he | he
        · exact Or.inl ⟨he, by simpa using hflag⟩
        · exact Or.inr he

theorem guidelineStage1_fs (x : Ext) (st : RunSt) (j : Nat) (p : String)
    (h : readableAt st.fs p) : readableAt (guidelineStage1 x st j).fs p := by
  unfold guidelineStage1
  dsimp only
  split
  · exact h
  · split
    · exact h
    · split
      · exact h
      · exact readableAt_fsWrite _ _ _ _ h

theorem guidelineStage1_sync (x : Ext) (st : RunSt) (j : Nat)
    (init : List WorkItem) (h : SyncInvP init st) :
    SyncInvP init (guidelineStage1 x st j) := by
  unfold guidelineStage1
  dsimp only
  split
  · exact h
  · split
    · exact syncInv_extend init st _ [Event.guidelineCall j (itemAt st.status j) st.status]
        h rfl (by simp [Sync, stateAtOf]) rfl
    · split
      · exact syncInv_extend init st _ [Event.guidelineCall j (itemAt st.status j) st.status]
          h rfl (by simp [Sync, stateAtOf]) rfl
      · exact syncInv_extend init st _
          [Event.guidelineCall j (itemAt st.status j) st.status,
           Event.persist (st.status.set j
             { itemAt st.status j with
                 guideline_generated := true
                 guideline_path := guidelinePathFor (itemAt st.status j).title })]
          h (by simp [commitItem, persistNow, emit, bump, save_guideline_text])
          (by simp [Sync, stateAtOf, nextLast])
          (by simp [lastPersist, nextLast, commitItem, persistNow, emit, bump, save_guideline_text])

/-! ### Shape lemmas for the blog and images stages of the first ladder -/

theorem blogStage1_status (x : Ext) (st : RunSt) (j : Nat) :
    (blogStage1 x st j).status = st.status ∨
    ((itemAt st.status j).guideline_generated = true ∧
      (itemAt st.status j).blog_generated = false ∧
      (blogStage1 x st j).status = st.status.set j
        { itemAt st.status j with
            blog_generated := true
            blog_path := blogPathFor (itemAt st.status j).title }) := by
  unfold blogStage1 blogCall
  dsimp only
  split
  · rename_i hgate
    rw [Bool.and_eq_true, Bool.not_eq_true'] at hgate
    split
    · split
      · left; rfl
      · split
        · left; rfl
        · right; exact ⟨hgate.1, hgate.2, rfl⟩
    · split
      · left; rfl
      · split
        · left; rfl
        · split
          · left; rfl
          · right; exact ⟨hgate.1, hgate.2, rfl⟩
  · left; rfl

theorem blogStage1_trace (x : Ext) (st : RunSt) (j : Nat) :
    ∃ es, (blogStage1 x st j).trace = st.trace ++ es ∧
      ∀ e ∈ es,
        (e = Event.guidelineCall j (itemAt st.status j) st.status ∧
          (itemAt st.status j).guideline_generated = true ∧
          tryReadSafe st.fs (itemAt st.status j).guideline_path = none) ∨
        (e = Event.drafterCall j (itemAt st.status j) st.status ∧
          (itemAt st.status j).guideline_generated = true) ∨
        e = Event.persist (blogStage1 x st j).status := by
  unfold blogStage1 blogCall
  dsimp only
  split
  · rename_i hgate
    rw [Bool.and_eq_true, Bool.not_eq_true'] at hgate
    split
    · split
      · refine ⟨[Event.drafterCall j (itemAt st.status j) st.status], rfl, ?_⟩
        intro e he
        simp only [List.mem_singleton] at he
        exact Or.inr (Or.inl ⟨he, hgate.1⟩)
      · split
        · refine ⟨[Event.drafterCall j (itemAt st.status j) st.status], rfl, ?_⟩
          intro e he
          simp only [List.mem_singleton] at he
          exact Or.inr (Or.inl ⟨he, hgate.1⟩)
        · refine ⟨[Event.drafterCall j (itemAt st.status j) st.status,
            Event.persist (st.status.set j
              { itemAt st.status j with
                  blog_generated := true
                  blog_path := blogPathFor (itemAt st.status j).title })],
            by simp [commitItem, persistNow, emit, bump, save_blog_md], ?_⟩
          intro e he
          simp only [List.mem_cons, List.mem_singleton, List.not_mem_nil, or_false] at he
          rcases he with he | he
          · exact Or.inr (Or.inl ⟨he, hgate.1⟩)
          · exact Or.inr (Or.inr he)
    · rename_i hread
      split
      · refine ⟨[Event.guidelineCall j (itemAt st.status j) st.status], rfl, ?_⟩
        intro e he
        simp only [List.mem_singleton] at he
        exact Or.inl ⟨he, hgate.1, hread⟩
      · split
        · refine ⟨[Event.guidelineCall j (itemAt st.status j) st.status,
            Event.drafterCall j (itemAt st.status j) st.status],
            by simp [emit, bump], ?_⟩
          intro e he
          simp only [List.mem_cons, List.mem_singleton, List.not_mem_nil, or_false] at he
          rcases he with he | he
          · exact Or.inl ⟨he, hgate.1, hread⟩
          · exact Or.inr (Or.inl ⟨he, hgate.1⟩)
        · split
          · refine ⟨[Event.guidelineCall j (itemAt st.status j) st.status,
              Event.drafterCall j (itemAt st.status j) st.status],
              by simp [emit, bump], ?_⟩
            intro e he
            simp only [List.mem_cons, List.mem_singleton, List.not_mem_nil, or_false] at he
            rcases he with he | he
            · exact Or.inl ⟨he, hgate.1, hread⟩
            · exact Or.inr (Or.inl ⟨he, hgate.1⟩)
          · refine ⟨[Event.guidelineCall j (itemAt st.status j) st.status,
              Event.drafterCall j (itemAt st.status j) st.status,
              Event.persist (st.status.set j
                { itemAt st.status j with
                    blog_generated := true
                    blog_path := blogPathFor (itemAt st.status j).title })],
              by simp [commitItem, persistNow, emit, bump, save_blog_md], ?_⟩
            intro e he
            simp only [List.mem_cons, List.mem_singleton, List.not_mem_nil, or_false] at he
            rcases he with he | he | he
            · exact Or.inl ⟨he, hgate.1, hread⟩
            · exact Or.inr (Or.inl ⟨he, hgate.1⟩)
            · exact Or.inr (Or.inr he)
  · exact ⟨[], by simp⟩

theorem blogStage1_fs (x : Ext) (st : RunSt) (j : Nat) (p : String)
    (h : readableAt st.fs p) : readableAt (blogStage1 x st j).fs p := by
  unfold blogStage1 blogCall
  dsimp only
  split
  · split
    · split
      · exact h
      · split
        · exact h
        · exact readableAt_fsWrite _ _ _ _ h
    · split
      · exact h
      · split
        · exact h
        · split
          · exact h
          · exact readableAt_fsWrite _ _ _ _ h
  · exact h

theorem blogStage1_sync (x : Ext) (st : RunSt) (j : Nat)
    (init : List WorkItem) (h : SyncInvP init st) :
    SyncInvP init (blogStage1 x st j) := by
  unfold blogStage1 blogCall
  dsimp only
  split
  · split
    · split
      · exact syncInv_extend init st _ [Event.drafterCall j (itemAt st.status j) st.status]
          h rfl (by simp [Sync, stateAtOf]) rfl
      · split
        · exact syncInv_extend init st _ [Event.drafterCall j (itemAt st.status j) st.status]
            h rfl (by simp [Sync, stateAtOf]) rfl
        · exact syncInv_extend init st _
            [Event.drafterCall j (itemAt st.status j) st.status,
             Event.persist (st.status.set j
               { itemAt st.status j with
                   blog_generated := true
                   blog_path := blogPathFor (itemAt st.status j).title })]
            h (by simp [commitItem, persistNow, emit, bump, save_blog_md])
            (by simp [Sync, stateAtOf, nextLast])
            (by simp [lastPersist, nextLast, commitItem, persistNow, emit, bump, save_blog_md])
    · split
      · exact syncInv_extend init st _ [Event.guidelineCall j (itemAt st.status j) st.status]
          h rfl (by simp [Sync, stateAtOf]) rfl
      · split
        · exact syncInv_extend init st _
            [Event.guidelineCall j (itemAt st.status j) st.status,
             Event.drafterCall j (itemAt st.status j) st.status]
            h (by simp [emit, bump]) (by simp [Sync, stateAtOf, nextLast]) rfl
        · split
          · exact syncInv_extend init st _
              [Event.guidelineCall j (itemAt st.status j) st.status,
               Event.drafterCall j (itemAt st.status j) st.status]
              h (by simp [emit, bump]) (by simp [Sync, stateAtOf, nextLast]) rfl
          · exact syncInv_extend init st _
              [Event.guidelineCall j (itemAt st.status j) st.status,
               Event.drafterCall j (itemAt st.status j) st.status,
               Event.persist (st.status.set j
                 { itemAt st.status j with
                     blog_generated := true
                     blog_path := blogPathFor (itemAt st.status j).title })]
              h (by simp [commitItem, persistNow, emit, bump, save_blog_md])
              (by simp [Sync, stateAtOf, nextLast])
              (by simp [lastPersist, nextLast, commitItem, persistNow, emit, bump, save_blog_md])
  · exact h

theorem imagesStage1_status (x : Ext) (st : RunSt) (j : Nat) :
    (imagesStage1 x st j).status = st.status ∨
    ((itemAt st.status j).blog_generated = true ∧
      (itemAt st.status j).images_generated = false ∧
      ∃ m, (imagesStage1 x st j).status = st.status.set j
        { itemAt st.status j with images_generated := true, images := m }) := by
  unfold imagesStage1 imagesCallDo
  dsimp only
  split
  · rename_i hgate
    rw [Bool.and_eq_true, Bool.not_eq_true'] at hgate
    split
    · split
      · left; rfl
      · rename_i a meta heq
        right
        exact ⟨hgate.1, hgate.2,
          (if meta.isEmpty then (itemAt st.status j).images else meta), rfl⟩
    · split
      · left; rfl
      · split
        · left; rfl
        · split
          · left; rfl
          · rename_i a meta heq
            right
            exact ⟨hgate.1, hgate.2,
              (if meta.isEmpty then (itemAt st.status j).images else meta), rfl⟩
  · left; rfl

theorem imagesStage1_trace (x : Ext) (st : RunSt) (j : Nat) :
    ∃ es, (imagesStage1 x st j).trace = st.trace ++ es ∧
      ∀ e ∈ es,
        (e = Event.drafterCall j (itemAt st.status j) st.status ∧
          (itemAt st.status j).blog_generated = true) ∨
        (e = Event.imagesCall j (itemAt st.status j) st.status ∧
          (itemAt st.status j).blog_generated = true) ∨
        e = Event.persist (imagesStage1 x st j).status := by
  unfold imagesStage1 imagesCallDo
  dsimp only
  split
  · rename_i hgate
    rw [Bool.and_eq_true, Bool.not_eq_true'] at hgate
    split
    · split
      · refine ⟨[Event.imagesCall j (itemAt st.status j) st.status], rfl, ?_⟩
        intro e he
        simp only [List.mem_singleton] at he
        exact Or.inr (Or.inl ⟨he, hgate.1⟩)
      · rename_i a meta heq
        refine ⟨[Event.imagesCall j (itemAt st.status j) st.status,
          Event.persist (st.status.set j
            { itemAt st.status j with
                images_generated := true
                images := if meta.isEmpty then (itemAt st.status j).images else meta })],
          by simp [commitItem, persistNow, emit, bump], ?_⟩
        intro e he
        simp only [List.mem_cons, List.mem_singleton, List.not_mem_nil, or_false] at he
        rcases he with he | he
        · exact Or.inr (Or.inl ⟨he, hgate.1⟩)
        · exact Or.inr (Or.inr he)
    · split
      · exact ⟨[], by simp⟩
      · split
        · refine ⟨[Event.drafterCall j (itemAt st.status j) st.status], rfl, ?_⟩
          intro e he
          simp only [List.mem_singleton] at he
          exact Or.inl ⟨he, hgate.1⟩
        · split
          · refine ⟨[Event.drafterCall j (itemAt st.status j) st.status,
              Event.imagesCall j (itemAt st.status j) st.status],
              by simp [emit, bump], ?_⟩
            intro e he
            simp only [List.mem_cons, List.mem_singleton, List.not_mem_nil, or_false] at he
            rcases he with he | he
            · exact Or.inl ⟨he, hgate.1⟩
            · exact Or.inr (Or.inl ⟨he, hgate.1⟩)
          · rename_i a meta heq
            refine ⟨[Event.drafterCall j (itemAt st.status j) st.status,
              Event.imagesCall j (itemAt st.status j) st.status,
              Event.persist (st.status.set j
                { itemAt st.status j with
                    images_generated := true
                    images := if meta.isEmpty then (itemAt st.status j).images else meta })],
              by simp [commitItem, persistNow, emit, bump], ?_⟩
            intro e he
            simp only [List.mem_cons, List.mem_singleton, List.not_mem_nil, or_false] at he
            rcases he with he | he | he
            · exact Or.inl ⟨he, hgate.1⟩
            · exact Or.inr (Or.inl ⟨he, hgate.1⟩)
            · exact Or.inr (Or.inr he)
  · exact ⟨[], by simp⟩

theorem imagesStage1_fs (x : Ext) (st : RunSt) (j : Nat) (p : String)
    (h : readableAt st.fs p) : readableAt (imagesStage1 x st j).fs p := by
  unfold imagesStage1 imagesCallDo
  dsimp only
  split
  · split
    · split
      · exact h
      · exact h
    · split
      · exact h
      · split
        · exact h
        · split
          · exact h
          · exact h
  · exact h

theorem imagesStage1_sync (x : Ext) (st : RunSt) (j : Nat)
    (init : List WorkItem) (h : SyncInvP init st) :
    SyncInvP init (imagesStage1 x st j) := by
  unfold imagesStage1 imagesCallDo
  dsimp only
  split
  · split
    · split
      · exact syncInv_extend init st _ [Event.imagesCall j (itemAt st.status j) st.status]
          h rfl (by simp [Sync, stateAtOf]) rfl
      · rename_i a meta heq
        exact syncInv_extend init st _
          [Event.imagesCall j (itemAt st.status j) st.status,
           Event.persist (st.status.set j
             { itemAt st.status j with
                 images_generated := true
                 images := if meta.isEmpty then (itemAt st.status j).images else meta })]
          h (by simp [commitItem, persistNow, emit, bump])
          (by simp [Sync, stateAtOf, nextLast])
          (by simp [lastPersist, nextLast, commitItem, persistNow, emit, bump])
    · split
      · exact h
      · split
        · exact syncInv_extend init st _ [Event.drafterCall j (itemAt st.status j) st.status]
            h rfl (by simp [Sync, stateAtOf]) rfl
        · split
          · exact syncInv_extend init st _
              [Event.drafterCall j (itemAt st.status j) st.status,
               Event.imagesCall j (itemAt st.status j) st.status]
              h (by simp [emit, bump]) (by simp [Sync, stateAtOf, nextLast]) rfl
          · rename_i a meta heq
            exact syncInv_extend init st _
              [Event.drafterCall j (itemAt st.status j) st.status,
               Event.imagesCall j (itemAt st.status j) st.status,
               Event.persist (st.status.set j
                 { itemAt st.status j with
                     images_generated := true
                     images := if meta.isEmpty then (itemAt st.status j).images else meta })]
              h (by simp [commitItem, persistNow, emit, bump])
              (by simp [Sync, stateAtOf, nextLast])
              (by simp [lastPersist, nextLast, commitItem, persistNow, emit, bump])
  · exact h

/-! ### Shape lemmas for the second-ladder steps -/

theorem newGuidelineStep_status (x : Ext) (st : RunSt) (j : Nat) :
    (newGuidelineStep x st j).1.status = st.status ∨
    ((itemAt st.status j).guideline_generated = false ∧
      (newGuidelineStep x st j).1.status = st.status.set j
        { itemAt st.status j with
            guideline_generated := true
            guideline_path := guidelinePathFor (itemAt st.status j).title }) := by
  unfold newGuidelineStep
  dsimp only
  split
  · left; rfl
  · rename_i hflag
    split
    · left; rfl
    · split
      · left; rfl
      · right; exact ⟨by simpa using hflag, rfl⟩

theorem newGuidelineStep_trace (x : Ext) (st : RunSt) (j : Nat) :
    ∃ es, (newGuidelineStep x st j).1.trace = st.trace ++ es ∧
      ∀ e ∈ es,
        (e = Event.guidelineCall j (itemAt st.status j) st.status ∧
          (itemAt st.status j).guideline_generated = false) ∨
        e = Event.persist (newGuidelineStep x st j).1.status := by
  unfold newGuidelineStep
  dsimp only
  split
  · exact ⟨[], by simp⟩
  · rename_i hflag
    split
    · refine ⟨[Event.guidelineCall j (itemAt st.status j) st.status], rfl, ?_⟩
      intro e he
      simp only [List.mem_singleton] at he
      exact Or.inl ⟨he, by simpa using hflag⟩
    · split
      · refine ⟨[Event.guidelineCall j (itemAt st.status j) st.status], rfl, ?_⟩
        intro e he
        simp only [List.mem_singleton] at he
        exact Or.inl ⟨he, by simpa using hflag⟩
      · refine ⟨[Event.guidelineCall j (itemAt st.status j) st.status,
          Event.persist (st.status.set j
            { itemAt st.status j with
                guideline_generated := true
                guideline_path := guidelinePathFor (itemAt st.status j).title })],
          by simp [commitItem, persistNow, emit, bump, save_guideline_text], ?_⟩
        intro e he
        simp only [List.mem_cons, List.mem_singleton, List.not_mem_nil, or_false] at he
        rcases he with he | he
        · exact Or.inl ⟨he, by simpa using hflag⟩
        · exact Or.inr he

theorem newGuidelineStep_fs (x : Ext) (st : RunSt) (j : Nat) (p : String)
    (h : readableAt st.fs p) : readableAt (newGuidelineStep x st j).1.fs p := by
  unfold newGuidelineStep
  dsimp only
  split
  · exact h
  · split
    · exact h
    · split
      · exact h
      · exact readableAt_fsWrite _ _ _ _ h

theorem newGuidelineStep_sync (x : Ext) (st : RunSt) (j : Nat)
    (init : List WorkItem) (h : SyncInvP init st) :
    SyncInvP init (newGuidelineStep x st j).1 := by
  unfold newGuidelineStep
  dsimp only
  split
  · exact h
  · split
    · exact syncInv_extend init st _ [Event.guidelineCall j (itemAt st.status j) st.status]
        h rfl (by simp [Sync, stateAtOf]) rfl
    · split
      · exact syncInv_extend init st _ [Event.guidelineCall j (itemAt st.status j) st.status]
          h rfl (by simp [Sync, stateAtOf]) rfl
      · exact syncInv_extend init st _
          [Event.guidelineCall j (itemAt st.status j) st.status,
           Event.persist (st.status.set j
             { itemAt st.status j with
                 guideline_generated := true
                 guideline_path := guidelinePathFor (itemAt st.status j).title })]
          h (by simp [commitItem, persistNow, emit, bump, save_guideline_text])
          (by simp [Sync, stateAtOf, nextLast])
          (by simp [lastPersist, nextLast, commitItem, persistNow, emit, bump, save_guideline_text])

theorem newBlogStep_status (x : Ext) (st : RunSt) (j : Nat) :
    (newBlogStep x st j).1.status = st.status ∨
    ((itemAt st.status j).guideline_generated = true ∧
      (itemAt st.status j).blog_generated = false ∧
      (newBlogStep x st j).1.status = st.status.set j
        { itemAt st.status j with
            blog_generated := true
            blog_path := blogPathFor (itemAt st.status j).title }) := by
  unfold newBlogStep
  dsimp only
  split
  · rename_i hgate
    rw [Bool.and_eq_true, Bool.not_eq_true'] at hgate
    split
    · left; rfl
    · split
      · left; rfl
      · split
        · left; rfl
        · right; exact ⟨hgate.1, hgate.2, rfl⟩
  · left; rfl

theorem newBlogStep_trace (x : Ext) (st : RunSt) (j : Nat) :
    ∃ es, (newBlogStep x st j).1.trace = st.trace ++ es ∧
      ∀ e ∈ es,
        (e = Event.drafterCall j (itemAt st.status j) st.status ∧
          (itemAt st.status j).guideline_generated = true) ∨
        e = Event.persist (newBlogStep x st j).1.status := by
  unfold newBlogStep
  dsimp only
  split
  · rename_i hgate
    rw [Bool.and_eq_true, Bool.not_eq_true'] at hgate
    split
    · exact ⟨[], by simp⟩
    · split
      · refine ⟨[Event.drafterCall j (itemAt st.status j) st.status], rfl, ?_⟩
        intro e he
        simp only [List.mem_singleton] at he
        exact Or.inl ⟨he, hgate.1⟩
      · split
        · refine ⟨[Event.drafterCall j (itemAt st.status j) st.status], rfl, ?_⟩
          intro e he
          simp only [List.mem_singleton] at he
          exact Or.inl ⟨he, hgate.1⟩
        · refine ⟨[Event.drafterCall j (itemAt st.status j) st.status,
            Event.persist (st.status.set j
              { itemAt st.status j with
                  blog_generated := true
                  blog_path := blogPathFor (itemAt st.status j).title })],
            by simp [commitItem, persistNow, emit, bump, save_blog_md], ?_⟩
          intro e he
          simp only [List.mem_cons, List.mem_singleton, List.not_mem_nil, or_false] at he
          rcases he with he | he
          · exact Or.inl ⟨he, hgate.1⟩
          · exact Or.inr he
  · exact ⟨[], by simp⟩

theorem newBlogStep_fs (x : Ext) (st : RunSt) (j : Nat) (p : String)
    (h : readableAt st.fs p) : readableAt (newBlogStep x st j).1.fs p := by
  unfold newBlogStep
  dsimp only
  split
  · split
    · exact h
    · split
      · exact h
      · split
        · exact h
        · exact readableAt_fsWrite _ _ _ _ h
  · exact h

theorem newBlogStep_sync (x : Ext) (st : RunSt) (j : Nat)
    (init : List WorkItem) (h : SyncInvP init st) :
    SyncInvP init (newBlogStep x st j).1 := by
  unfold newBlogStep
  dsimp only
  split
  · split
    · exact h
    · split
      · exact syncInv_extend init st _ [Event.drafterCall j (itemAt st.status j) st.status]
          h rfl (by simp [Sync, stateAtOf]) rfl
      · split
        · exact syncInv_extend init st _ [Event.drafterCall j (itemAt st.status j) st.status]
            h rfl (by simp [Sync, stateAtOf]) rfl
        · exact syncInv_extend init st _
            [Event.drafterCall j (itemAt st.status j) st.status,
             Event.persist (st.status.set j
               { itemAt st.status j with
                   blog_generated := true
                   blog_path := blogPathFor (itemAt st.status j).title })]
            h (by simp [commitItem, persistNow, emit, bump, save_blog_md])
            (by simp [Sync, stateAtOf, nextLast])
            (by simp [lastPersist, nextLast, commitItem, persistNow, emit, bump, save_blog_md])
  · exact h

theorem newImagesStep_status (x : Ext) (st : RunSt) (j : Nat) :
    (newImagesStep x st j).1.status = st.status ∨
    ((itemAt st.status j).blog_generated = true ∧
      (itemAt st.status j).images_generated = false ∧
      ∃ m, (newImagesStep x st j).1.status = st.status.set j
        { itemAt st.status j with images_generated := true, images := m }) := by
  unfold newImagesStep
  dsimp only
  split
  · rename_i hgate
    rw [Bool.and_eq_true, Bool.not_eq_true'] at hgate
    split
    · left; rfl
    · split
      · left; rfl
      · rename_i a meta heq
        right
        exact ⟨hgate.1, hgate.2,
          (if meta.isEmpty then (itemAt st.status j).images else meta), rfl⟩
  · left; rfl

theorem newImagesStep_trace (x : Ext) (st : RunSt) (j : Nat) :
    ∃ es, (newImagesStep x st j).1.trace = st.trace ++ es ∧
      ∀ e ∈ es,
        (e = Event.imagesCall j (itemAt st.status j) st.status ∧
          (itemAt st.status j).blog_generated = true) ∨
        e = Event.persist (newImagesStep x st j).1.status := by
  unfold newImagesStep
  dsimp only
  split
  · rename_i hgate
    rw [Bool.and_eq_true, Bool.not_eq_true'] at hgate
    split
    · exact ⟨[], by simp⟩
    · split
      · refine ⟨[Event.imagesCall j (itemAt st.status j) st.status], rfl, ?_⟩
        intro e he
        simp only [List.mem_singleton] at he
        exact Or.inl ⟨he, hgate.1⟩
      · rename_i a meta heq
        refine ⟨[Event.imagesCall j (itemAt st.status j) st.status,
          Event.persist (st.status.set j
            { itemAt st.status j with
                images_generated := true
                images := if meta.isEmpty then (itemAt st.status j).images else meta })],
          by simp [commitItem, persistNow, emit, bump], ?_⟩
        intro e he
        simp only [List.mem_cons, List.mem_singleton, List.not_mem_nil, or_false] at he
        rcases he with he | he
        · exact Or.inl ⟨he, hgate.1⟩
        · exact Or.inr he
  · exact ⟨[], by simp⟩

theorem newImagesStep_fs (x : Ext) (st : RunSt) (j : Nat) (p : String)
    (h : readableAt st.fs p) : readableAt (newImagesStep x st j).1.fs p := by
  unfold newImagesStep
  dsimp only
  split
  · split
    · exact h
    · split
      · exact h
      · exact h
  · exact h

theorem newImagesStep_sync (x : Ext) (st : RunSt) (j : Nat)
    (init : List WorkItem) (h : SyncInvP init st) :
    SyncInvP init (newImagesStep x st j).1 := by
  unfold newImagesStep
  dsimp only
  split
  · split
    · exact h
    · split
      · exact syncInv_extend init st _ [Event.imagesCall j (itemAt st.status j) st.status]
          h rfl (by simp [Sync, stateAtOf]) rfl
      · rename_i a meta heq
        exact syncInv_extend init st _
          [Event.imagesCall j (itemAt st.status j) st.status,
           Event.persist (st.status.set j
             { itemAt st.status j with
                 images_generated := true
                 images := if meta.isEmpty then (itemAt st.status j).images else meta })]
          h (by simp [commitItem, persistNow, emit, bump])
          (by simp [Sync, stateAtOf, nextLast])
          (by simp [lastPersist, nextLast, commitItem, persistNow, emit, bump])
  · exact h

/-! ### The single-stage update relation and its consequences -/

/-- The three possible updates a stage can make to one entry. -/
def AdvItem (a b : WorkItem) : Prop :=
  (a.guideline_generated = false ∧
    b = { a with guideline_generated := true, guideline_path := guidelinePathFor a.title }) ∨
  (a.guideline_generated = true ∧ a.blog_generated = false ∧
    b = { a with blog_generated := true, blog_path := blogPathFor a.title }) ∨
  (a.blog_generated = true ∧ a.images_generated = false ∧
    ∃ m, b = { a with images_generated := true, images := m })

theorem advItem_title (a b : WorkItem) (h : AdvItem a b) : b.title = a.title := by
  rcases h with ⟨_, rfl⟩ | ⟨_, _, rfl⟩ | ⟨_, _, _, rfl⟩ <;> rfl

theorem advItem_mono_g (a b : WorkItem) (h : AdvItem a b) (hg : a.guideline_generated = true) :
    b.guideline_generated = true ∧ b.guideline_path = a.guideline_path := by
  rcases h with ⟨hf, rfl⟩ | ⟨_, _, rfl⟩ | ⟨_, _, _, rfl⟩
  · rw [hg] at hf; cases hf
  · exact ⟨hg, rfl⟩
  · exact ⟨hg, rfl⟩

theorem advItem_mono_b (a b : WorkItem) (h : AdvItem a b) (hb : a.blog_generated = true) :
    b.blog_generated = true ∧ b.blog_path = a.blog_path := by
  rcases h with ⟨_, rfl⟩ | ⟨_, hf, _⟩ | ⟨_, _, _, rfl⟩
  · exact ⟨hb, rfl⟩
  · rw [hb] at hf; cases hf
  · exact ⟨hb, rfl⟩

theorem advItem_mono_i (a b : WorkItem) (h : AdvItem a b) (hi : a.images_generated = true) :
    b.images_generated = true := by
  rcases h with ⟨_, rfl⟩ | ⟨_, _, rfl⟩ | ⟨_, hf, _⟩
  · exact hi
  · exact hi
  · rw [hi] at hf; cases hf

theorem advItem_inv (a b : WorkItem) (h : AdvItem a b) (ha : InvItem a) : InvItem b := by
  rcases h with ⟨_, rfl⟩ | ⟨hg, _, rfl⟩ | ⟨hb, _, _, rfl⟩
  · exact ⟨fun _ => rfl, ha.2⟩
  · exact ⟨fun _ => hg, fun hi => absurd (ha.2 hi) (by simp_all)⟩
  · refine ⟨fun hbb => ha.1 hbb, fun _ => hb⟩

theorem advItem_complete (a b : WorkItem) (h : AdvItem a b)
    (hc : is_unfinished a = false) : False := by
  unfold is_unfinished at hc
  simp only [Bool.not_eq_false', Bool.and_eq_true] at hc
  rcases h with ⟨hf, _⟩ | ⟨_, hf, _⟩ | ⟨_, hf, _⟩
  · rw [hc.1.1] at hf; cases hf
  · rw [hc.1.2] at hf; cases hf
  · rw [hc.2] at hf; cases hf

/-- A stage either leaves the state alone or applies one `AdvItem` update
at index `j`. -/
def StageAdv (j : Nat) (s s2 : List WorkItem) : Prop :=
  s2 = s ∨ ∃ b, AdvItem (itemAt s j) b ∧ s2 = s.set j b

theorem set_oob :
    ∀ (s : List WorkItem) (j : Nat) (a : WorkItem), s.length ≤ j → s.set j a = s
  | [], _, _, _ => rfl
  | _ :: _, 0, _, h => absurd h (by simp)
  | c :: s, j + 1, a, h => by
    show c :: s.set j a = c :: s
    rw [set_oob s j a (by simpa using h)]

theorem titles_set (s : List WorkItem) (j : Nat) (b : WorkItem)
    (hb : b.title = (itemAt s j).title) :
    (s.set j b).map (fun t => t.title) = s.map (fun t => t.title) := by
  induction s generalizing j with
  | nil => rfl
  | cons a s ih =>
    cases j with
    | zero => simpa using hb
    | succ j =>
      show _ :: (s.set j b).map (fun t => t.title) = _ :: s.map (fun t => t.title)
      rw [ih j hb]

theorem stageAdv_titles (j : Nat) (s s2 : List WorkItem) (h : StageAdv j s s2) :
    s2.map (fun t => t.title) = s.map (fun t => t.title) := by
  rcases h with rfl | ⟨b, hb, rfl⟩
  · rfl
  · exact titles_set s j b (advItem_title _ _ hb)

theorem stageAdv_length (j : Nat) (s s2 : List WorkItem) (h : StageAdv j s s2) :
    s2.length = s.length := by
  have := stageAdv_titles j s s2 h
  have h1 := congrArg List.length this
  simpa using h1

theorem stageAdv_frame (j : Nat) (s s2 : List WorkItem) (h : StageAdv j s s2)
    (k : Nat) (hk : k ≠ j) : itemAt s2 k = itemAt s k := by
  rcases h with rfl | ⟨b, _, rfl⟩
  · rfl
  · exact itemAt_set_ne s j k b hk

theorem stageAdv_inv (j : Nat) (s s2 : List WorkItem) (h : StageAdv j s s2)
    (hs : Inv s) : Inv s2 := by
  rcases h with rfl | ⟨b, hb, rfl⟩
  · exact hs
  · exact Inv_set s j b hs (advItem_inv _ _ hb (InvItem_itemAt s j hs))

/-- Entry-local monotonicity of one index across any piece of the run:
set flags stay set with their artifact paths, and a complete entry is
never changed. -/
def ItemMonoAt (i : Nat) (s s2 : List WorkItem) : Prop :=
  ((itemAt s i).guideline_generated = true →
    (itemAt s2 i).guideline_generated = true ∧
    (itemAt s2 i).guideline_path = (itemAt s i).guideline_path) ∧
  ((itemAt s i).blog_generated = true →
    (itemAt s2 i).blog_generated = true ∧
    (itemAt s2 i).blog_path = (itemAt s i).blog_path) ∧
  ((itemAt s i).images_generated = true → (itemAt s2 i).images_generated = true) ∧
  (is_unfinished (itemAt s i) = false → itemAt s2 i = itemAt s i)

theorem itemMonoAt_refl (i : Nat) (s : List WorkItem) : ItemMonoAt i s s :=
  ⟨fun h => ⟨h, rfl⟩, fun h => ⟨h, rfl⟩, fun h => h, fun _ => rfl⟩

theorem itemMonoAt_trans (i : Nat) (s1 s2 s3 : List WorkItem)
    (h12 : ItemMonoAt i s1 s2) (h23 : ItemMonoAt i s2 s3) : ItemMonoAt i s1 s3 := by
  obtain ⟨g12, b12, i12, c12⟩ := h12
  obtain ⟨g23, b23, i23, c23⟩ := h23
  refine ⟨?_, ?_, ?_, ?_⟩
  · intro h
    obtain ⟨h2, hp2⟩ := g12 h
    obtain ⟨h3, hp3⟩ := g23 h2
    exact ⟨h3, hp3.trans hp2⟩
  · intro h
    obtain ⟨h2, hp2⟩ := b12 h
    obtain ⟨h3, hp3⟩ := b23 h2
    exact ⟨h3, hp3.trans hp2⟩
  · exact fun h => i23 (i12 h)
  · intro h
    have h2 := c12 h
    have hc2 : is_unfinished (itemAt s2 i) = false := by rw [h2]; exact h
    exact (h2 ▸ c23 hc2)

theorem itemMonoAt_of_eq (i : Nat) (s s2 : List WorkItem)
    (h : itemAt s2 i = itemAt s i) : ItemMonoAt i s s2 := by
  refine ⟨fun hg => ?_, fun hb => ?_, fun hi => ?_, fun _ => h⟩
  · rw [h]; exact ⟨hg, rfl⟩
  · rw [h]; exact ⟨hb, rfl⟩
  · rw [h]; exact hi

theorem stageAdv_itemMonoAt (j : Nat) (s s2 : List WorkItem) (h : StageAdv j s s2)
    (i : Nat) : ItemMonoAt i s s2 := by
  rcases h with rfl | ⟨b, hb, rfl⟩
  · exact itemMonoAt_refl _ _
  · by_cases hij : i = j
    · subst hij
      by_cases hlen : i < s.length

      · have hset : itemAt (s.set i b) i = b := itemAt_set_self s i b hlen
        refine ⟨?_, ?_, ?_, ?_⟩
        · intro hg
          rw [hset]
          exact advItem_mono_g _ _ hb hg
        · intro hbb
          rw [hset]
          exact advItem_mono_b _ _ hb hbb
        · intro hi
          rw [hset]
          exact advItem_mono_i _ _ hb hi
        · intro hc
          exact absurd (advItem_complete _ _ hb hc) id
      · rw [set_oob s i b (Nat.le_of_not_lt hlen)]
        exact itemMonoAt_refl i s
    · exact itemMonoAt_of_eq i s _ (itemAt_set_ne s j i b hij)

theorem guidelineStage1_adv (x : Ext) (st : RunSt) (j : Nat) :
    StageAdv j st.status (guidelineStage1 x st j).status := by
  rcases guidelineStage1_status x st j with h | ⟨hflag, h⟩
  · exact Or.inl h
  · exact Or.inr ⟨_, Or.inl ⟨hflag, rfl⟩, h⟩

theorem blogStage1_adv (x : Ext) (st : RunSt) (j : Nat) :
    StageAdv j st.status (blogStage1 x st j).status := by
  rcases blogStage1_status x st j with h | ⟨hg, hb, h⟩
  · exact Or.inl h
  · exact Or.inr ⟨_, Or.inr (Or.inl ⟨hg, hb, rfl⟩), h⟩

theorem imagesStage1_adv (x : Ext) (st : RunSt) (j : Nat) :
    StageAdv j st.status (imagesStage1 x st j).status := by
  rcases imagesStage1_status x st j with h | ⟨hb, hi, m, h⟩
  · exact Or.inl h
  · exact Or.inr ⟨_, Or.inr (Or.inr ⟨hb, hi, m, rfl⟩), h⟩

theorem newGuidelineStep_adv (x : Ext) (st : RunSt) (j : Nat) :
    StageAdv j st.status (newGuidelineStep x st j).1.status := by
  rcases newGuidelineStep_status x st j with h | ⟨hflag, h⟩
  · exact Or.inl h
  · exact Or.inr ⟨_, Or.inl ⟨hflag, rfl⟩, h⟩

theorem newBlogStep_adv (x : Ext) (st : RunSt) (j : Nat) :
    StageAdv j st.status (newBlogStep x st j).1.status := by
  rcases newBlogStep_status x st j with h | ⟨hg, hb, h⟩
  · exact Or.inl h
  · exact Or.inr ⟨_, Or.inr (Or.inl ⟨hg, hb, rfl⟩), h⟩

theorem newImagesStep_adv (x : Ext) (st : RunSt) (j : Nat) :
    StageAdv j st.status (newImagesStep x st j).1.status := by
  rcases newImagesStep_status x st j with h | ⟨hb, hi, m, h⟩
  · exact Or.inl h
  · exact Or.inr ⟨_, Or.inr (Or.inr ⟨hb, hi, m, rfl⟩), h⟩

/-! ### Observation soundness per stage -/

/-- The combined observation invariant carried through the run. -/
def GoodC1 (st : RunSt) : Prop :=
  Inv st.status ∧ TraceOK st.trace

theorem guidelineStage1_good (x : Ext) (st : RunSt) (j : Nat)
    (h : GoodC1 st) : GoodC1 (guidelineStage1 x st j) := by
  obtain ⟨hInv, hTr⟩ := h
  have hInv2 : Inv (guidelineStage1 x st j).status :=
    stageAdv_inv _ _ _ (guidelineStage1_adv x st j) hInv
  obtain ⟨es, hes, hmem⟩ := guidelineStage1_trace x st j
  refine ⟨hInv2, ?_⟩
  rw [hes]
  refine TraceOK_append _ _ hTr ?_
  intro e he
  rcases hmem e he with ⟨rfl, _⟩ | rfl
  · exact hInv
  · exact hInv2

theorem blogStage1_good (x : Ext) (st : RunSt) (j : Nat)
    (h : GoodC1 st) : GoodC1 (blogStage1 x st j) := by
  obtain ⟨hInv, hTr⟩ := h
  have hInv2 : Inv (blogStage1 x st j).status :=
    stageAdv_inv _ _ _ (blogStage1_adv x st j) hInv
  obtain ⟨es, hes, hmem⟩ := blogStage1_trace x st j
  refine ⟨hInv2, ?_⟩
  rw [hes]
  refine TraceOK_append _ _ hTr ?_
  intro e he
  rcases hmem e he with ⟨rfl, _, _⟩ | ⟨rfl, hg⟩ | rfl
  · exact hInv
  · exact ⟨hg, hInv⟩
  · exact hInv2

theorem imagesStage1_good (x : Ext) (st : RunSt) (j : Nat)
    (h : GoodC1 st) : GoodC1 (imagesStage1 x st j) := by
  obtain ⟨hInv, hTr⟩ := h
  have hInv2 : Inv (imagesStage1 x st j).status :=
    stageAdv_inv _ _ _ (imagesStage1_adv x st j) hInv
  obtain ⟨es, hes, hmem⟩ := imagesStage1_trace x st j
  refine ⟨hInv2, ?_⟩
  rw [hes]
  refine TraceOK_append _ _ hTr ?_
  intro e he
  rcases hmem e he with ⟨rfl, hb⟩ | ⟨rfl, hb⟩ | rfl
  · exact ⟨(InvItem_itemAt st.status j hInv).1 hb, hInv⟩
  · exact ⟨hb, hInv⟩
  · exact hInv2

theorem newGuidelineStep_good (x : Ext) (st : RunSt) (j : Nat)
    (h : GoodC1 st) : GoodC1 (newGuidelineStep x st j).1 := by
  obtain ⟨hInv, hTr⟩ := h
  have hInv2 : Inv (newGuidelineStep x st j).1.status :=
    stageAdv_inv _ _ _ (newGuidelineStep_adv x st j) hInv
  obtain ⟨es, hes, hmem⟩ := newGuidelineStep_trace x st j
  refine ⟨hInv2, ?_⟩
  rw [hes]
  refine TraceOK_append _ _ hTr ?_
  intro e he
  rcases hmem e he with ⟨rfl, _⟩ | rfl
  · exact hInv
  · exact hInv2

theorem newBlogStep_good (x : Ext) (st : RunSt) (j : Nat)
    (h : GoodC1 st) : GoodC1 (newBlogStep x st j).1 := by
  obtain ⟨hInv, hTr⟩ := h
  have hInv2 : Inv (newBlogStep x st j).1.status :=
    stageAdv_inv _ _ _ (newBlogStep_adv x st j) hInv
  obtain ⟨es, hes, hmem⟩ := newBlogStep_trace x st j
  refine ⟨hInv2, ?_⟩
  rw [hes]
  refine TraceOK_append _ _ hTr ?_
  intro e he
  rcases hmem e he with ⟨rfl, hg⟩ | rfl
  · exact ⟨hg, hInv⟩
  · exact hInv2

theorem newImagesStep_good (x : Ext) (st : RunSt) (j : Nat)
    (h : GoodC1 st) : GoodC1 (newImagesStep x st j).1 := by
  obtain ⟨hInv, hTr⟩ := h
  have hInv2 : Inv (newImagesStep x st j).1.status :=
    stageAdv_inv _ _ _ (newImagesStep_adv x st j) hInv
  obtain ⟨es, hes, hmem⟩ := newImagesStep_trace x st j
  refine ⟨hInv2, ?_⟩
  rw [hes]
  refine TraceOK_append _ _ hTr ?_
  intro e he
  rcases hmem e he with ⟨rfl, hb⟩ | rfl
  · exact ⟨hb, hInv⟩
  · exact hInv2

/-! ### Item-level composition -/

theorem processItem1_sync (x : Ext) (st : RunSt) (j : Nat) (init : List WorkItem)
    (h : SyncInvP init st) : SyncInvP init (processItem1 x st j) :=
  imagesStage1_sync x _ j init (blogStage1_sync x _ j init (guidelineStage1_sync x st j init h))

theorem processItem1_fs (x : Ext) (st : RunSt) (j : Nat) (p : String)
    (h : readableAt st.fs p) : readableAt (processItem1 x st j).fs p :=
  imagesStage1_fs x _ j p (blogStage1_fs x _ j p (guidelineStage1_fs x st j p h))

theorem processItem1_good (x : Ext) (st : RunSt) (j : Nat)
    (h : GoodC1 st) : GoodC1 (processItem1 x st j) :=
  imagesStage1_good x _ j (blogStage1_good x _ j (guidelineStage1_good x st j h))

theorem processItem1_itemMonoAt (x : Ext) (st : RunSt) (j i : Nat) :
    ItemMonoAt i st.status (processItem1 x st j).status :=
  itemMonoAt_trans i _ _ _
    (itemMonoAt_trans i _ _ _
      (stageAdv_itemMonoAt j _ _ (guidelineStage1_adv x st j) i)
      (stageAdv_itemMonoAt j _ _ (blogStage1_adv x _ j) i))
    (stageAdv_itemMonoAt j _ _ (imagesStage1_adv x _ j) i)

theorem processItem1_titles (x : Ext) (st : RunSt) (j : Nat) :
    (processItem1 x st j).status.map (fun t => t.title) =
      st.status.map (fun t => t.title) :=
  ((stageAdv_titles j _ _ (imagesStage1_adv x _ j)).trans
    (stageAdv_titles j _ _ (blogStage1_adv x _ j))).trans
    (stageAdv_titles j _ _ (guidelineStage1_adv x st j))

theorem processItem1_frame (x : Ext) (st : RunSt) (j k : Nat) (hk : k ≠ j) :
    itemAt (processItem1 x st j).status k = itemAt st.status k :=
  ((stageAdv_frame j _ _ (imagesStage1_adv x _ j) k hk).trans
    (stageAdv_frame j _ _ (blogStage1_adv x _ j) k hk)).trans
    (stageAdv_frame j _ _ (guidelineStage1_adv x st j) k hk)

theorem processItem2_sync (x : Ext) (st : RunSt) (j : Nat) (init : List WorkItem)
    (h : SyncInvP init st) : SyncInvP init (processItem2 x st j) := by
  unfold processItem2
  dsimp only
  split
  · split
    · exact newImagesStep_sync x _ j init (newBlogStep_sync x _ j init (newGuidelineStep_sync x st j init h))
    · exact newBlogStep_sync x _ j init (newGuidelineStep_sync x st j init h)
  · exact newGuidelineStep_sync x st j init h

theorem processItem2_fs (x : Ext) (st : RunSt) (j : Nat) (p : String)
    (h : readableAt st.fs p) : readableAt (processItem2 x st j).fs p := by
  unfold processItem2
  dsimp only
  split
  · split
    · exact newImagesStep_fs x _ j p (newBlogStep_fs x _ j p (newGuidelineStep_fs x st j p h))
    · exact newBlogStep_fs x _ j p (newGuidelineStep_fs x st j p h)
  · exact newGuidelineStep_fs x st j p h

theorem processItem2_good (x : Ext) (st : RunSt) (j : Nat)
    (h : GoodC1 st) : GoodC1 (processItem2 x st j) := by
  unfold processItem2
  dsimp only
  split
  · split
    · exact newImagesStep_good x _ j (newBlogStep_good x _ j (newGuidelineStep_good x st j h))
    · exact newBlogStep_good x _ j (newGuidelineStep_good x st j h)
  · exact newGuidelineStep_good x st j h

theorem processItem2_itemMonoAt (x : Ext) (st : RunSt) (j i : Nat) :
    ItemMonoAt i st.status (processItem2 x st j).status := by
  unfold processItem2
  dsimp only
  split
  · split
    · exact itemMonoAt_trans i _ _ _
        (itemMonoAt_trans i _ _ _
          (stageAdv_itemMonoAt j _ _ (newGuidelineStep_adv x st j) i)
          (stageAdv_itemMonoAt j _ _ (newBlogStep_adv x _ j) i))
        (stageAdv_itemMonoAt j _ _ (newImagesStep_adv x _ j) i)
    · exact itemMonoAt_trans i _ _ _
        (stageAdv_itemMonoAt j _ _ (newGuidelineStep_adv x st j) i)
        (stageAdv_itemMonoAt j _ _ (newBlogStep_adv x _ j) i)
  · exact stageAdv_itemMonoAt j _ _ (newGuidelineStep_adv x st j) i

theorem processItem2_titles (x : Ext) (st : RunSt) (j : Nat) :
    (processItem2 x st j).status.map (fun t => t.title) =
      st.status.map (fun t => t.title) := by
  unfold processItem2
  dsimp only
  split
  · split
    · exact ((stageAdv_titles j _ _ (newImagesStep_adv x _ j)).trans
        (stageAdv_titles j _ _ (newBlogStep_adv x _ j))).trans
        (stageAdv_titles j _ _ (newGuidelineStep_adv x st j))
    · exact (stageAdv_titles j _ _ (newBlogStep_adv x _ j)).trans
        (stageAdv_titles j _ _ (newGuidelineStep_adv x st j))
  · exact stageAdv_titles j _ _ (newGuidelineStep_adv x st j)

theorem processItem2_frame (x : Ext) (st : RunSt) (j k : Nat) (hk : k ≠ j) :
    itemAt (processItem2 x st j).status k = itemAt st.status k := by
  unfold processItem2
  dsimp only
  split
  · split
    · exact ((stageAdv_frame j _ _ (newImagesStep_adv x _ j) k hk).trans
        (stageAdv_frame j _ _ (newBlogStep_adv x _ j) k hk)).trans
        (stageAdv_frame j _ _ (newGuidelineStep_adv x st j) k hk)
    · exact (stageAdv_frame j _ _ (newBlogStep_adv x _ j) k hk).trans
        (stageAdv_frame j _ _ (newGuidelineStep_adv x st j) k hk)
  · exact stageAdv_frame j _ _ (newGuidelineStep_adv x st j) k hk

/-! ### Ladder-level composition -/

theorem runLadder1_sync (x : Ext) (init : List WorkItem) :
    ∀ (idxs : List Nat) (st : RunSt), SyncInvP init st →
      SyncInvP init (runLadder1 x st idxs)
  | [], _, h => h
  | j :: rest, st, h =>
    runLadder1_sync x init rest (processItem1 x st j) (processItem1_sync x st j init h)

theorem runLadder1_fs (x : Ext) (p : String) :
    ∀ (idxs : List Nat) (st : RunSt), readableAt st.fs p →
      readableAt (runLadder1 x st idxs).fs p
  | [], _, h => h
  | j :: rest, st, h =>
    runLadder1_fs x p rest (processItem1 x st j) (processItem1_fs x st j p h)

theorem runLadder1_good (x : Ext) :
    ∀ (idxs : List Nat) (st : RunSt), GoodC1 st → GoodC1 (runLadder1 x st idxs)
  | [], _, h => h
  | j :: rest, st, h =>
    runLadder1_good x rest (processItem1 x st j) (processItem1_good x st j h)

theorem runLadder1_itemMonoAt (x : Ext) (i : Nat) :
    ∀ (idxs : List Nat) (st : RunSt),
      ItemMonoAt i st.status (runLadder1 x st idxs).status
  | [], st => itemMonoAt_refl i st.status
  | j :: rest, st =>
    itemMonoAt_trans i _ _ _ (processItem1_itemMonoAt x st j i)
      (runLadder1_itemMonoAt x i rest (processItem1 x st j))

theorem runLadder1_titles (x : Ext) :
    ∀ (idxs : List Nat) (st : RunSt),
      (runLadder1 x st idxs).status.map (fun t => t.title) =
        st.status.map (fun t => t.title)
  | [], _ => rfl
  | j :: rest, st =>
    (runLadder1_titles x rest (processItem1 x st j)).trans (processItem1_titles x st j)

theorem runLadder1_frame (x : Ext) (k : Nat) :
    ∀ (idxs : List Nat) (st : RunSt), (∀ j ∈ idxs, k ≠ j) →
      itemAt (runLadder1 x st idxs).status k = itemAt st.status k
  | [], _, _ => rfl
  | j :: rest, st, hk =>
    (runLadder1_frame x k rest (processItem1 x st j)
        (fun i hi => hk i (List.mem_cons_of_mem _ hi))).trans
      (processItem1_frame x st j k (hk j (List.mem_cons_self _ _)))

theorem runLadder2_sync (x : Ext) (init : List WorkItem) :
    ∀ (idxs : List Nat) (st : RunSt), SyncInvP init st →
      SyncInvP init (runLadder2 x st idxs)
  | [], _, h => h
  | j :: rest, st, h =>
    runLadder2_sync x init rest (processItem2 x st j) (processItem2_sync x st j init h)

theorem runLadder2_fs (x : Ext) (p : String) :
    ∀ (idxs : List Nat) (st : RunSt), readableAt st.fs p →
      readableAt (runLadder2 x st idxs).fs p
  | [], _, h => h
  | j :: rest, st, h =>
    runLadder2_fs x p rest (processItem2 x st j) (processItem2_fs x st j p h)

theorem runLadder2_good (x : Ext) :
    ∀ (idxs : List Nat) (st : RunSt), GoodC1 st → GoodC1 (runLadder2 x st idxs)
  | [], _, h => h
  | j :: rest, st, h =>
    runLadder2_good x rest (processItem2 x st j) (processItem2_good x st j h)

theorem runLadder2_itemMonoAt (x : Ext) (i : Nat) :
    ∀ (idxs : List Nat) (st : RunSt),
      ItemMonoAt i st.status (runLadder2 x st idxs).status
  | [], st => itemMonoAt_refl i st.status
  | j :: rest, st =>
    itemMonoAt_trans i _ _ _ (processItem2_itemMonoAt x st j i)
      (runLadder2_itemMonoAt x i rest (processItem2 x st j))

theorem runLadder2_titles (x : Ext) :
    ∀ (idxs : List Nat) (st : RunSt),
      (runLadder2 x st idxs).status.map (fun t => t.title) =
        st.status.map (fun t => t.title)
  | [], _ => rfl
  | j :: rest, st =>
    (runLadder2_titles x rest (processItem2 x st j)).trans (processItem2_titles x st j)

theorem runLadder2_frame (x : Ext) (k : Nat) :
    ∀ (idxs : List Nat) (st : RunSt), (∀ j ∈ idxs, k ≠ j) →
      itemAt (runLadder2 x st idxs).status k = itemAt st.status k
  | [], _, _ => rfl
  | j :: rest, st, hk =>
    (runLadder2_frame x k rest (processItem2 x st j)
        (fun i hi => hk i (List.mem_cons_of_mem _ hi))).trans
      (processItem2_frame x st j k (hk j (List.mem_cons_self _ _)))

/-! ### Trace extension with restricted event kinds -/

/-- The item index an event is about, if any. -/
def evIdxOf : Event → Option Nat
  | Event.guidelineCall k _ _ => some k
  | Event.drafterCall k _ _ => some k
  | Event.imagesCall k _ _ => some k
  | Event.proposerCall _ => none
  | Event.persist _ => none

/-- Recognizer for persist events. -/
def isPersistEv : Event → Bool
  | Event.persist _ => true
  | _ => false

/-- `st2`'s trace extends `st`'s by events all satisfying `P`. -/
def TraceRestrict (P : Event → Prop) (st st2 : RunSt) : Prop :=
  ∃ es, st2.trace = st.trace ++ es ∧ ∀ e ∈ es, P e

theorem traceRestrict_refl (P : Event → Prop) (st : RunSt) : TraceRestrict P st st :=
  ⟨[], by simp, by simp⟩

theorem traceRestrict_trans (P : Event → Prop) (st1 st2 st3 : RunSt)
    (h12 : TraceRestrict P st1 st2) (h23 : TraceRestrict P st2 st3) :
    TraceRestrict P st1 st3 := by
  obtain ⟨a, ha, hpa⟩ := h12
  obtain ⟨b, hb, hpb⟩ := h23
  refine ⟨a ++ b, by rw [hb, ha, List.append_assoc], ?_⟩
  intro e he
  rcases List.mem_append.mp he with h | h
  · exact hpa e h
  · exact hpb e h

theorem traceRestrict_mono (P Q : Event → Prop) (st st2 : RunSt)
    (himp : ∀ e, P e → Q e) (h : TraceRestrict P st st2) : TraceRestrict Q st st2 := by
  obtain ⟨es, hes, hp⟩ := h
  exact ⟨es, hes, fun e he => himp e (hp e he)⟩

theorem traceRestrict_of_eq (P : Event → Prop) (st st2 : RunSt)
    (h : st2.trace = st.trace) : TraceRestrict P st st2 :=
  ⟨[], by simp [h], by simp⟩

/-- The restricted event kind produced by processing index `j`: an event
about index `j`, or a persist. -/
def IdxEv (j : Nat) (e : Event) : Prop :=
  evIdxOf e = some j ∨ isPersistEv e = true

theorem guidelineStage1_evs (x : Ext) (st : RunSt) (j : Nat) :
    TraceRestrict (IdxEv j) st (guidelineStage1 x st j) := by
  obtain ⟨es, hes, hmem⟩ := guidelineStage1_trace x st j
  refine ⟨es, hes, fun e he => ?_⟩
  rcases hmem e he with ⟨rfl, _⟩ | rfl
  · exact Or.inl rfl
  · exact Or.inr rfl

theorem blogStage1_evs (x : Ext) (st : RunSt) (j : Nat) :
    TraceRestrict (IdxEv j) st (blogStage1 x st j) := by
  obtain ⟨es, hes, hmem⟩ := blogStage1_trace x st j
  refine ⟨es, hes, fun e he => ?_⟩
  rcases hmem e he with ⟨rfl, _, _⟩ | ⟨rfl, _⟩ | rfl
  · exact Or.inl rfl
  · exact Or.inl rfl
  · exact Or.inr rfl

theorem imagesStage1_evs (x : Ext) (st : RunSt) (j : Nat) :
    TraceRestrict (IdxEv j) st (imagesStage1 x st j) := by
  obtain ⟨es, hes, hmem⟩ := imagesStage1_trace x st j
  refine ⟨es, hes, fun e he => ?_⟩
  rcases hmem e he with ⟨rfl, _⟩ | ⟨rfl, _⟩ | rfl
  · exact Or.inl rfl
  · exact Or.inl rfl
  · exact Or.inr rfl

theorem processItem1_evs (x : Ext) (st : RunSt) (j : Nat) :
    TraceRestrict (IdxEv j) st (processItem1 x st j) :=
  traceRestrict_trans _ _ _ _
    (traceRestrict_trans _ _ _ _ (guidelineStage1_evs x st j) (blogStage1_evs x _ j))
    (imagesStage1_evs x _ j)

theorem newGuidelineStep_evs (x : Ext) (st : RunSt) (j : Nat) :
    TraceRestrict (IdxEv j) st (newGuidelineStep x st j).1 := by
  obtain ⟨es, hes, hmem⟩ := newGuidelineStep_trace x st j
  refine ⟨es, hes, fun e he => ?_⟩
  rcases hmem e he with ⟨rfl, _⟩ | rfl
  · exact Or.inl rfl
  · exact Or.inr rfl

theorem newBlogStep_evs (x : Ext) (st : RunSt) (j : Nat) :
    TraceRestrict (IdxEv j) st (newBlogStep x st j).1 := by
  obtain ⟨es, hes, hmem⟩ := newBlogStep_trace x st j
  refine ⟨es, hes, fun e he => ?_⟩
  rcases hmem e he with ⟨rfl, _⟩ | rfl
  · exact Or.inl rfl
  · exact Or.inr rfl

theorem newImagesStep_evs (x : Ext) (st : RunSt) (j : Nat) :
    TraceRestrict (IdxEv j) st (newImagesStep x st j).1 := by
  obtain ⟨es, hes, hmem⟩ := newImagesStep_trace x st j
  refine ⟨es, hes, fun e he => ?_⟩
  rcases hmem e he with ⟨rfl, _⟩ | rfl
  · exact Or.inl rfl
  · exact Or.inr rfl

theorem processItem2_evs (x : Ext) (st : RunSt) (j : Nat) :
    TraceRestrict (IdxEv j) st (processItem2 x st j) := by
  unfold processItem2
  dsimp only
  split
  · split
    · exact traceRestrict_trans _ _ _ _
        (traceRestrict_trans _ _ _ _ (newGuidelineStep_evs x st j) (newBlogStep_evs x _ j))
        (newImagesStep_evs x _ j)
    · exact traceRestrict_trans _ _ _ _ (newGuidelineStep_evs x st j) (newBlogStep_evs x _ j)
  · exact newGuidelineStep_evs x st j

/-- Events produced by a ladder over `idxs`: about some index in `idxs`,
or persists. -/
theorem runLadder1_evs (x : Ext) :
    ∀ (idxs : List Nat) (st : RunSt),
      TraceRestrict (fun e => (∃ j ∈ idxs, evIdxOf e = some j) ∨ isPersistEv e = true)
        st (runLadder1 x st idxs)
  | [], st => traceRestrict_refl _ st
  | j :: rest, st => by
    refine traceRestrict_trans _ _ _ _
      (traceRestrict_mono (IdxEv j) _ _ _ ?_ (processItem1_evs x st j))
      (traceRestrict_mono _ _ _ _ ?_ (runLadder1_evs x rest (processItem1 x st j)))
    · intro e he
      rcases he with h | h
      · exact Or.inl ⟨j, List.mem_cons_self _ _, h⟩
      · exact Or.inr h
    · intro e he
      rcases he with ⟨i, hi, h⟩ | h
      · exact Or.inl ⟨i, List.mem_cons_of_mem _ hi, h⟩
      · exact Or.inr h

theorem runLadder2_evs (x : Ext) :
    ∀ (idxs : List Nat) (st : RunSt),
      TraceRestrict (fun e => (∃ j ∈ idxs, evIdxOf e = some j) ∨ isPersistEv e = true)
        st (runLadder2 x st idxs)
  | [], st => traceRestrict_refl _ st
  | j :: rest, st => by
    refine traceRestrict_trans _ _ _ _
      (traceRestrict_mono (IdxEv j) _ _ _ ?_ (processItem2_evs x st j))
      (traceRestrict_mono _ _ _ _ ?_ (runLadder2_evs x rest (processItem2 x st j)))
    · intro e he
      rcases he with h | h
      · exact Or.inl ⟨j, List.mem_cons_self _ _, h⟩
      · exact Or.inr h
    · intro e he
      rcases he with ⟨i, hi, h⟩ | h
      · exact Or.inl ⟨i, List.mem_cons_of_mem _ hi, h⟩
      · exact Or.inr h

/-! ### Migration phase lemmas -/

theorem migrationPhase_noop (x : Ext) (st : RunSt) (h : ¬ st.status = []) :
    migrationPhase x st = st := by
  unfold migrationPhase
  have : st.status.isEmpty = false := by
    cases hs : st.status with
    | nil => exact absurd hs h
    | cons a l => rfl
  simp [this]

theorem Inv_seedFromLegacy (items : List TopicItem) : Inv (seedFromLegacy items) := by
  intro t ht
  unfold seedFromLegacy at ht
  simp only [List.mem_map] at ht
  obtain ⟨rt, _, hrt⟩ := ht
  rw [← hrt]
  exact ⟨fun h => absurd h Bool.false_ne_true, fun h => absurd h Bool.false_ne_true⟩

theorem Inv_mkNewList (l : List TopicFields) :
    Inv (l.map (fun nt => mkNewItem nt.title nt.keyword)) := by
  intro t ht
  simp only [List.mem_map] at ht
  obtain ⟨nt, _, hnt⟩ := ht
  rw [← hnt]
  exact ⟨fun h => absurd h Bool.false_ne_true, fun h => absurd h Bool.false_ne_true⟩

theorem migrationPhase_good (x : Ext) (st : RunSt) (h : GoodC1 st) :
    GoodC1 (migrationPhase x st) := by
  unfold migrationPhase
  split
  · rename_i hemp
    have hnil : st.status = [] := by
      cases hs : st.status with
      | nil => rfl
      | cons a l => rw [hs] at hemp; cases hemp
    split
    · refine ⟨?_, ?_⟩
      · show Inv (st.status ++ seedFromLegacy x.topicsFileItems)
        exact Inv_append _ _ h.1 (Inv_seedFromLegacy _)
      · show TraceOK (st.trace ++ [Event.persist (st.status ++ seedFromLegacy x.topicsFileItems)])
        refine TraceOK_append _ _ h.2 ?_
        intro e he
        simp only [List.mem_singleton] at he
        subst he
        exact Inv_append _ _ h.1 (Inv_seedFromLegacy _)
    · split
      · refine ⟨?_, ?_⟩
        · show Inv (st.status ++ seedFromLegacy x.allTopicsFileItems)
          exact Inv_append _ _ h.1 (Inv_seedFromLegacy _)
        · show TraceOK (st.trace ++ [Event.persist (st.status ++ seedFromLegacy x.allTopicsFileItems)])
          refine TraceOK_append _ _ h.2 ?_
          intro e he
          simp only [List.mem_singleton] at he
          subst he
          exact Inv_append _ _ h.1 (Inv_seedFromLegacy _)
      · exact h
  · exact h

theorem migrationPhase_sync (x : Ext) (st : RunSt) (init : List WorkItem)
    (h : SyncInvP init st) : SyncInvP init (migrationPhase x st) := by
  unfold migrationPhase
  split
  · split
    · exact syncInv_extend init st _
        [Event.persist (st.status ++ seedFromLegacy x.topicsFileItems)]
        h (by simp [persistNow, emit]) (by simp [Sync, stateAtOf])
        (by simp [lastPersist, nextLast, persistNow, emit])
    · split
      · exact syncInv_extend init st _
          [Event.persist (st.status ++ seedFromLegacy x.allTopicsFileItems)]
          h (by simp [persistNow, emit]) (by simp [Sync, stateAtOf])
          (by simp [lastPersist, nextLast, persistNow, emit])
      · exact h
  · exact h

theorem migrationPhase_evs (x : Ext) (st : RunSt) :
    TraceRestrict (fun e => isPersistEv e = true) st (migrationPhase x st) := by
  unfold migrationPhase
  split
  · split
    · refine ⟨[Event.persist (st.status ++ seedFromLegacy x.topicsFileItems)],
        by simp [persistNow, emit], ?_⟩
      intro e he
      simp only [List.mem_singleton] at he
      subst he
      rfl
    · split
      · refine ⟨[Event.persist (st.status ++ seedFromLegacy x.allTopicsFileItems)],
          by simp [persistNow, emit], ?_⟩
        intro e he
        simp only [List.mem_singleton] at he
        subst he
        rfl
      · exact traceRestrict_refl _ st
  · exact traceRestrict_refl _ st

theorem migrationPhase_fs (x : Ext) (st : RunSt) :
    (migrationPhase x st).fs = st.fs := by
  unfold migrationPhase
  split
  · split
    · rfl
    · split
      · rfl
      · rfl
  · rfl

/-! ### Events not about a given index -/

/-- No stage call of any kind about index `j`. -/
def NotAbout (j : Nat) (e : Event) : Prop :=
  isGCallAt j e = false ∧ isDCallAt j e = false ∧ isICallAt j e = false

theorem notAbout_of_idx (j k : Nat) (e : Event) (h : evIdxOf e = some k) (hk : k ≠ j) :
    NotAbout j e := by
  cases e with
  | guidelineCall i it s =>
    simp only [evIdxOf, Option.some.injEq] at h
    subst h
    exact ⟨beq_eq_false_iff_ne.mpr hk, rfl, rfl⟩
  | drafterCall i it s =>
    simp only [evIdxOf, Option.some.injEq] at h
    subst h
    exact ⟨rfl, beq_eq_false_iff_ne.mpr hk, rfl⟩
  | imagesCall i it s =>
    simp only [evIdxOf, Option.some.injEq] at h
    subst h
    exact ⟨rfl, rfl, beq_eq_false_iff_ne.mpr hk⟩
  | proposerCall s => cases h
  | persist s => cases h

theorem notAbout_persist (j : Nat) (s : List WorkItem) :
    NotAbout j (Event.persist s) := ⟨rfl, rfl, rfl⟩

theorem notAbout_proposer (j : Nat) (s : List WorkItem) :
    NotAbout j (Event.proposerCall s) := ⟨rfl, rfl, rfl⟩

/-! ### New-topics phase lemmas -/

theorem newTopicsPhase_good (x : Ext) (st : RunSt) (h : GoodC1 st) :
    GoodC1 (newTopicsPhase x st).1 := by
  unfold newTopicsPhase
  dsimp only
  split
  · refine ⟨h.1, ?_⟩
    show TraceOK (st.trace ++ [Event.proposerCall st.status])
    refine TraceOK_append _ _ h.2 ?_
    intro e he
    simp only [List.mem_singleton] at he
    subst he
    exact h.1
  · split
    · refine ⟨h.1, ?_⟩
      show TraceOK (st.trace ++ [Event.proposerCall st.status])
      refine TraceOK_append _ _ h.2 ?_
      intro e he
      simp only [List.mem_singleton] at he
      subst he
      exact h.1
    · apply runLadder2_good
      constructor
      · show Inv (st.status ++ List.map _ _)
        exact Inv_append _ _ h.1 (Inv_mkNewList _)
      · show TraceOK ((st.trace ++ [Event.proposerCall st.status]) ++
          [Event.persist (st.status ++ List.map _ _)])
        refine TraceOK_append _ _ (TraceOK_append _ _ h.2 ?_) ?_
        · intro e he
          simp only [List.mem_singleton] at he
          subst he
          exact h.1
        · intro e he
          simp only [List.mem_singleton] at he
          subst he
          exact Inv_append _ _ h.1 (Inv_mkNewList _)

theorem newTopicsPhase_sync (x : Ext) (st : RunSt) (init : List WorkItem)
    (h : SyncInvP init st) : SyncInvP init (newTopicsPhase x st).1 := by
  unfold newTopicsPhase
  dsimp only
  split
  · exact syncInv_extend init st _ [Event.proposerCall st.status]
      h rfl (by simp [Sync, stateAtOf]) rfl
  · split
    · exact syncInv_extend init st _ [Event.proposerCall st.status]
        h rfl (by simp [Sync, stateAtOf]) rfl
    · rename_i raw heq hne
      apply runLadder2_sync
      refine syncInv_extend init st _
        [Event.proposerCall st.status,
         Event.persist (st.status ++ List.map (fun nt => mkNewItem nt.title nt.keyword)
           (acceptTopics (existingTitles st.status) 0 raw))]
        h (by simp [persistNow, emit, bump]) ?_ ?_
      · exact ⟨Or.inr rfl, Or.inl rfl, trivial⟩
      · simp [persistNow, emit, bump, lastPersist, nextLast]

theorem newTopicsPhase_fs (x : Ext) (st : RunSt) (p : String)
    (h : readableAt st.fs p) : readableAt (newTopicsPhase x st).1.fs p := by
  unfold newTopicsPhase
  dsimp only
  split
  · exact h
  · split
    · exact h
    · exact runLadder2_fs x p _ _ h

/-- When the entry at `j` is already complete and within bounds, the
new-topics phase emits no stage-call event about `j`: the second ladder
only visits unfinished indices. -/
theorem newTopicsPhase_avoid (x : Ext) (st : RunSt) (j : Nat)
    (hlen : j < st.status.length)
    (hc : is_unfinished (itemAt st.status j) = false) :
    TraceRestrict (NotAbout j) st (newTopicsPhase x st).1 := by
  unfold newTopicsPhase
  dsimp only
  split
  · refine ⟨[Event.proposerCall st.status], rfl, ?_⟩
    intro e he
    simp only [List.mem_singleton] at he
    subst he
    exact notAbout_proposer _ _
  · split
    · refine ⟨[Event.proposerCall st.status], rfl, ?_⟩
      intro e he
      simp only [List.mem_singleton] at he
      subst he
      exact notAbout_proposer _ _
    · rename_i raw heq hne
      refine traceRestrict_trans _ _ _ _
        (⟨[Event.proposerCall st.status,
           Event.persist (st.status ++ List.map (fun nt => mkNewItem nt.title nt.keyword)
             (acceptTopics (existingTitles st.status) 0 raw))],
          by simp [persistNow, emit, bump], ?_⟩)
        (traceRestrict_mono _ _ _ _ ?_ (runLadder2_evs x _ _))
      · intro e he
        simp only [List.mem_cons, List.mem_singleton, List.not_mem_nil, or_false] at he
        rcases he with he | he
        · subst he; exact notAbout_proposer _ _
        · subst he; exact notAbout_persist _ _
      · intro e he
        rcases he with ⟨i, hi, hidx⟩ | hp
        · refine notAbout_of_idx j i e hidx ?_
          intro hij
          subst hij
          rw [mem_unfinishedIdxs] at hi
          simp only [persistNow, emit, bump] at hi
          have happ : itemAt (st.status ++
              List.map (fun nt => mkNewItem nt.title nt.keyword)
                (acceptTopics (existingTitles st.status) 0 raw)) i = itemAt st.status i := by
            exact itemAt_append_left _ _ i hlen
          rw [happ] at hi
          rw [hc] at hi
          exact absurd hi.2 (by simp)
        · cases e with
          | persist s => exact notAbout_persist _ _
          | guidelineCall a b c => cases hp
          | drafterCall a b c => cases hp
          | imagesCall a b c => cases hp
          | proposerCall s => exact notAbout_proposer _ _

/-! ### Pipeline-level assembly -/

theorem loadPhase_sync (env : Env) : SyncInvP (ensuredInit env) (loadPhase env) :=
  ⟨trivial, rfl⟩

theorem afterLadder1_sync (env : Env) : SyncInvP (ensuredInit env) (afterLadder1 env) :=
  runLadder1_sync env.ext (ensuredInit env) _ _
    (migrationPhase_sync env.ext (loadPhase env) (ensuredInit env) (loadPhase_sync env))

theorem afterLadder1_good (env : Env) (h : Inv (ensuredInit env)) :
    GoodC1 (afterLadder1 env) :=
  runLadder1_good env.ext _ _
    (migrationPhase_good env.ext (loadPhase env)
      ⟨h, fun e he => absurd he (List.not_mem_nil e)⟩)

theorem notProposer_of_persist (e : Event) (h : isPersistEv e = true) :
    isProposerEv e = false := by
  cases e
  · rfl
  · rfl
  · rfl
  · exact absurd h (by simp [isPersistEv])
  · rfl

theorem notProposer_of_idx (e : Event) (k : Nat) (h : evIdxOf e = some k) :
    isProposerEv e = false := by
  cases e
  · rfl
  · rfl
  · rfl
  · cases h
  · rfl

theorem traceRestrict_all (P : Event → Prop) (env : Env) (st2 : RunSt)
    (h : TraceRestrict P (loadPhase env) st2) : ∀ e ∈ st2.trace, P e := by
  obtain ⟨es, hes, hp⟩ := h
  intro e he
  rw [hes] at he
  have : (loadPhase env).trace = [] := rfl
  rw [this, List.nil_append] at he
  exact hp e he

theorem afterLadder1_noProposer (env : Env) :
    ∀ e ∈ (afterLadder1 env).trace, isProposerEv e = false := by
  apply traceRestrict_all
  refine traceRestrict_trans _ _ _ _
    (traceRestrict_mono _ _ _ _ ?_ (migrationPhase_evs env.ext (loadPhase env)))
    (traceRestrict_mono _ _ _ _ ?_
      (runLadder1_evs env.ext (unfinishedIdxs (afterMigration env).status) (afterMigration env)))
  · exact fun e he => notProposer_of_persist e he
  · intro e he
    rcases he with ⟨i, _, hidx⟩ | hp
    · exact notProposer_of_idx e i hidx
    · exact notProposer_of_persist e hp

/-! ### Shared witness environments -/

/-- A filesystem with no files. -/
def absentFS : FS := fun _ => FileState.absent

/-- External collaborators that always succeed with empty results. -/
def idleExt : Ext :=
  { fs0 := absentFS
    topicsFileExists := false
    topicsFileItems := []
    allTopicsFileExists := false
    allTopicsFileItems := []
    genGuideline := fun _ _ _ => CallRes.ok ""
    genBlog := fun _ _ _ _ => CallRes.ok ""
    genImages := fun _ _ _ => CallRes.ok []
    proposeTopics := fun _ => CallRes.ok [] }

/-- The trivial environment: no status file, no legacy files. -/
def trivEnv : Env := { statusLoad := StatusLoad.absent, ext := idleExt }

/-- A raw status entry holding only a title. -/
def rawOne : RawItem :=
  { title := some "Solar", keyword := none, guideline_generated := none
    blog_generated := none, images_generated := none, guideline_path := none
    blog_path := none, images := none }

/-- One unfinished tracked topic, and every generation call returns an
empty result. -/
def envOneIdle : Env := { statusLoad := StatusLoad.parsed [rawOne], ext := idleExt }

/-! ### Claim theorems -/

/-- C1: stage monotonicity.  If the loaded tracker state satisfies the
invariant (`blog_generated` implies `guideline_generated` and
`images_generated` implies `blog_generated`), then after a resume run the
final state satisfies it, every persisted snapshot and every call-time
state in the trace satisfies it, the Article Drafter is invoked only on
items whose guideline flag is already set, and the Illustration Generator
only on items whose blog flag is already set. -/
theorem C1_stage_monotonicity (env : Env) (h : Inv (ensuredInit env)) :
    Inv (run_full_pipeline env).1.status ∧ TraceOK (run_full_pipeline env).1.trace := by
  have h1 : GoodC1 (afterLadder1 env) := afterLadder1_good env h
  unfold run_full_pipeline
  dsimp only
  split
  · exact newTopicsPhase_good env.ext _ h1
  · exact h1

/-- Witness for C1 at a concrete environment. -/
theorem C1_stage_monotonicity_witness :
    Inv (ensuredInit trivEnv) ∧
    Inv (run_full_pipeline trivEnv).1.status ∧
    TraceOK (run_full_pipeline trivEnv).1.trace := by
  have hInv : Inv (ensuredInit trivEnv) := fun t ht => absurd ht (List.not_mem_nil t)
  exact ⟨hInv, (C1_stage_monotonicity trivEnv hInv).1, (C1_stage_monotonicity trivEnv hInv).2⟩

/-- C2: whole-state persistence after every successful stage transition.
At every external call event of the trace, the state recorded at that
call equals the last persisted snapshot (or the loaded state when nothing
was persisted yet), so a completed stage transition is always persisted —
as a whole-state snapshot — before the next stage of the same item or any
stage of a later item is attempted; and the final in-memory state equals
the last persisted snapshot. -/
theorem C2_persist_before_next_stage (env : Env) :
    Sync (ensuredInit env) (run_full_pipeline env).1.trace ∧
    (run_full_pipeline env).1.status =
      lastPersist (ensuredInit env) (run_full_pipeline env).1.trace := by
  have h1 : SyncInvP (ensuredInit env) (afterLadder1 env) := afterLadder1_sync env
  unfold run_full_pipeline
  dsimp only
  split
  · exact newTopicsPhase_sync env.ext _ _ h1
  · exact h1

/-- C6: no unbounded growth.  If the recomputed incomplete set after the
first ladder is non-empty, the run returns right there: the Topic
Proposer is never invoked anywhere in the trace and no entry is appended
to the state. -/
theorem C6_no_unbounded_growth (env : Env)
    (h : unfinishedIdxs (afterLadder1 env).status ≠ []) :
    run_full_pipeline env = (afterLadder1 env, true) ∧
    (run_full_pipeline env).1.status = (afterLadder1 env).status ∧
    (∀ e ∈ (run_full_pipeline env).1.trace, isProposerEv e = false) := by
  have hcond : (unfinishedIdxs (afterLadder1 env).status).isEmpty = false := by
    cases hu : unfinishedIdxs (afterLadder1 env).status with
    | nil => exact absurd hu h
    | cons a l => rfl
  have hrun : run_full_pipeline env = (afterLadder1 env, true) := by
    unfold run_full_pipeline
    dsimp only
    rw [if_neg]
    intro hh
    rw [hcond] at hh
    exact Bool.false_ne_true hh
  refine ⟨hrun, by rw [hrun], ?_⟩
  rw [hrun]
  exact afterLadder1_noProposer env

/-- Witness for C6 at a concrete environment with one unfinished topic. -/
theorem C6_no_unbounded_growth_witness :
    unfinishedIdxs (afterLadder1 envOneIdle).status ≠ [] ∧
    run_full_pipeline envOneIdle = (afterLadder1 envOneIdle, true) := by
  have hne : unfinishedIdxs (afterLadder1 envOneIdle).status ≠ [] := by
    have : unfinishedIdxs (afterLadder1 envOneIdle).status = [0] := rfl
    rw [this]
    exact List.cons_ne_nil 0 []
  exact ⟨hne, (C6_no_unbounded_growth envOneIdle hne).1⟩

/-- C10: a status file that exists but fails to parse is loaded as the
empty default without raising, and the run then behaves exactly as if no
status file existed at all — previously recorded flags and paths are
silently discarded. -/
theorem C10_corrupt_status_file_ignored (env : Env) :
    loadStatus StatusLoad.corrupt = [] ∧
    run_full_pipeline { statusLoad := StatusLoad.corrupt, ext := env.ext } =
      run_full_pipeline { statusLoad := StatusLoad.absent, ext := env.ext } :=
  ⟨rfl, rfl⟩

/-- C9 counterexample: the claim that every generation component returns
an empty value and never raises is false.  `generate_images_for_blog`
has no exception handling at all, so a raising generation call propagates
to its caller; and `generate_new_topics` raises `ValueError` when the
response fails to parse as JSON instead of returning an empty list. -/
theorem C9_error_contract_counterexample :
    generate_images_for_blog "Solar" CallRes.raised (fun _ => CallRes.raised) =
      CallRes.raised ∧
    generate_new_topics (CallRes.ok "not json") (fun _ => none) = CallRes.raised ∧
    (CallRes.raised : CallRes String) ≠ CallRes.ok "" :=
  ⟨rfl, rfl, fun h => CallRes.noConfusion h⟩

/-- C9 amended: the Guideline Expander and the Article Drafter return the
empty string when the generation call raises, and the batch Topic
Proposer (`generate_blog_topics`) returns the empty list then; but the
Illustration Generator propagates any raising generation call, and
`generate_new_topics` raises on a response that fails to parse. -/
theorem C9_error_contract_amended :
    generate_guideline_text CallRes.raised = CallRes.ok "" ∧
    generate_blog_from_guideline CallRes.raised = CallRes.ok "" ∧
    (∀ p, generate_blog_topics p CallRes.raised =
      CallRes.ok (TopicsResult.parsedList [])) ∧
    (∀ t f, generate_images_for_blog t CallRes.raised f = CallRes.raised) ∧
    (∀ raw, generate_new_topics (CallRes.ok raw) (fun _ => none) = CallRes.raised) :=
  ⟨rfl, rfl, fun _ => rfl, fun _ _ => rfl, fun _ => rfl⟩

/-! ### Skip lemmas and the empty-guideline scenario -/

theorem blogStage1_skipG (x : Ext) (st : RunSt) (j : Nat)
    (hg : (itemAt st.status j).guideline_generated = false) :
    blogStage1 x st j = st := by
  unfold blogStage1
  dsimp only
  rw [if_neg]
  rw [hg, Bool.false_and]
  exact Bool.false_ne_true

theorem blogStage1_skipB (x : Ext) (st : RunSt) (j : Nat)
    (hb : (itemAt st.status j).blog_generated = true) :
    blogStage1 x st j = st := by
  unfold blogStage1
  dsimp only
  rw [if_neg]
  rw [hb, Bool.not_true, Bool.and_false]
  exact Bool.false_ne_true

theorem imagesStage1_skipB (x : Ext) (st : RunSt) (j : Nat)
    (hb : (itemAt st.status j).blog_generated = false) :
    imagesStage1 x st j = st := by
  unfold imagesStage1
  dsimp only
  rw [if_neg]
  rw [hb, Bool.false_and]
  exact Bool.false_ne_true

/-- Processing an item whose guideline flag is down while the Guideline
Expander returns the empty string: the guideline call is made, the flag
stays down, no path is recorded, the article and images stages are not
attempted, and the filesystem and status are untouched. -/
theorem processItem1_empty_guideline (x : Ext) (st : RunSt) (j : Nat)
    (hg : (itemAt st.status j).guideline_generated = false)
    (hb : (itemAt st.status j).blog_generated = false)
    (hor : ∀ k, x.genGuideline k (itemAt st.status j).title
      (itemAt st.status j).keyword = CallRes.ok "") :
    processItem1 x st j =
      { st with ctr := st.ctr + 1
                trace := st.trace ++
                  [Event.guidelineCall j (itemAt st.status j) st.status] } := by
  have h1 : guidelineStage1 x st j =
      { st with ctr := st.ctr + 1
                trace := st.trace ++
                  [Event.guidelineCall j (itemAt st.status j) st.status] } := by
    unfold guidelineStage1
    dsimp only
    rw [if_neg (by rw [hg]; exact Bool.false_ne_true), hor]
    rfl
  unfold processItem1
  rw [h1]
  rw [blogStage1_skipG x
    { st with ctr := st.ctr + 1
              trace := st.trace ++
                [Event.guidelineCall j (itemAt st.status j) st.status] } j hg]
  rw [imagesStage1_skipB x
    { st with ctr := st.ctr + 1
              trace := st.trace ++
                [Event.guidelineCall j (itemAt st.status j) st.status] } j hb]

theorem runLadder1_append (x : Ext) :
    ∀ (a b : List Nat) (st : RunSt),
      runLadder1 x st (a ++ b) = runLadder1 x (runLadder1 x st a) b
  | [], _, _ => rfl
  | j :: rest, b, st => runLadder1_append x rest b (processItem1 x st j)

theorem map_title_length (s s2 : List WorkItem)
    (h : s2.map (fun t => t.title) = s.map (fun t => t.title)) :
    s2.length = s.length := by
  have h2 := congrArg List.length h
  simpa using h2

/-- If the recomputed incomplete set is non-empty, the run stops right
after the first ladder. -/
theorem run_full_pipeline_stops (env : Env)
    (h : unfinishedIdxs (afterLadder1 env).status ≠ []) :
    run_full_pipeline env = (afterLadder1 env, true) := by
  have hcond : (unfinishedIdxs (afterLadder1 env).status).isEmpty = false := by
    cases hu : unfinishedIdxs (afterLadder1 env).status with
    | nil => exact absurd hu h
    | cons a l => rfl
  unfold run_full_pipeline
  dsimp only
  rw [if_neg]
  intro hh
  rw [hcond] at hh
  exact Bool.false_ne_true hh

/-- If the recomputed incomplete set is empty, the run continues into the
new-topics phase. -/
theorem run_full_pipeline_proposes (env : Env)
    (h : unfinishedIdxs (afterLadder1 env).status = []) :
    run_full_pipeline env = newTopicsPhase env.ext (afterLadder1 env) := by
  unfold run_full_pipeline
  dsimp only
  rw [if_pos]
  rw [h]
  rfl

/-- Ladder behaviour around an item whose guideline stage keeps returning
the empty string: the entry is never changed and no drafter or images
call about it is ever made. -/
theorem runLadder1_c7 (x : Ext) (j : Nat) (item0 : WorkItem)
    (hg : item0.guideline_generated = false)
    (hb : item0.blog_generated = false)
    (hor : ∀ k, x.genGuideline k item0.title item0.keyword = CallRes.ok "") :
    ∀ (idxs : List Nat) (st : RunSt), itemAt st.status j = item0 →
      itemAt (runLadder1 x st idxs).status j = item0 ∧
      TraceRestrict (fun e => isDCallAt j e = false ∧ isICallAt j e = false)
        st (runLadder1 x st idxs)
  | [], st, h => ⟨h, traceRestrict_refl _ st⟩
  | k :: rest, st, h => by
    by_cases hkj : k = j
    · subst hkj
      have heq := processItem1_empty_guideline x st k
        (by rw [h]; exact hg) (by rw [h]; exact hb) (by rw [h]; exact hor)
      have hitem : itemAt (processItem1 x st k).status k = item0 := by
        rw [heq]; exact h
      obtain ⟨hi2, htr2⟩ := runLadder1_c7 x k item0 hg hb hor rest (processItem1 x st k) hitem
      refine ⟨hi2, traceRestrict_trans _ _ _ _ ?_ htr2⟩
      refine ⟨[Event.guidelineCall k (itemAt st.status k) st.status], by rw [heq], ?_⟩
      intro e he
      simp only [List.mem_singleton] at he
      subst he
      exact ⟨rfl, rfl⟩
    · have hitem : itemAt (processItem1 x st k).status j = item0 := by
        rw [processItem1_frame x st k j (fun hh => hkj hh.symm)]
        exact h
      obtain ⟨hi2, htr2⟩ := runLadder1_c7 x j item0 hg hb hor rest (processItem1 x st k) hitem
      refine ⟨hi2, traceRestrict_trans _ _ _ _ ?_ htr2⟩
      refine traceRestrict_mono _ _ _ _ ?_ (processItem1_evs x st k)
      intro e he
      rcases he with hidx | hp
      · have hna := notAbout_of_idx j k e hidx hkj
        exact ⟨hna.2.1, hna.2.2⟩
      · cases e with
        | persist s => exact ⟨rfl, rfl⟩
        | guidelineCall a b c => cases hp
        | drafterCall a b c => cases hp
        | imagesCall a b c => cases hp
        | proposerCall s => exact ⟨rfl, rfl⟩

/-- C7: empty-guideline behaviour.  For an entry whose three flags are
down and whose guideline call always returns the empty string, a resume
run leaves the entry completely unchanged (flag still down, no path
recorded), never attempts its article or images stage, finishes without
an uncaught exception, and leaves the entry in the incomplete set that
the next resume call will pick up. -/
theorem C7_empty_guideline_scenario (env : Env) (j : Nat)
    (hlen : j < (ensuredInit env).length)
    (hg : (itemAt (ensuredInit env) j).guideline_generated = false)
    (hb : (itemAt (ensuredInit env) j).blog_generated = false)
    (hor : ∀ k, env.ext.genGuideline k (itemAt (ensuredInit env) j).title
      (itemAt (ensuredInit env) j).keyword = CallRes.ok "") :
    itemAt (run_full_pipeline env).1.status j = itemAt (ensuredInit env) j ∧
    (∀ e ∈ (run_full_pipeline env).1.trace,
      isDCallAt j e = false ∧ isICallAt j e = false) ∧
    j ∈ unfinishedIdxs (run_full_pipeline env).1.status ∧
    (run_full_pipeline env).2 = true := by
  have hne0 : ¬ (loadPhase env).status = [] := by
    intro hnil
    have : (ensuredInit env).length = 0 := by
      have h2 : (loadPhase env).status = ensuredInit env := rfl
      rw [h2] at hnil
      rw [hnil]
      rfl
    omega
  have hmig : afterMigration env = loadPhase env :=
    migrationPhase_noop env.ext (loadPhase env) hne0
  have hinit : itemAt (afterMigration env).status j = itemAt (ensuredInit env) j := by
    rw [hmig]
    rfl
  have key := runLadder1_c7 env.ext j (itemAt (ensuredInit env) j) hg hb hor
    (unfinishedIdxs (afterMigration env).status) (afterMigration env) hinit
  have hA : itemAt (afterLadder1 env).status j = itemAt (ensuredInit env) j := key.1
  have hlenA : (afterLadder1 env).status.length = (ensuredInit env).length := by
    have ht : (afterLadder1 env).status.map (fun t => t.title) =
        (afterMigration env).status.map (fun t => t.title) :=
      runLadder1_titles env.ext _ _
    have h2 := map_title_length _ _ ht
    rw [hmig] at h2
    exact h2
  have hunf : is_unfinished (itemAt (afterLadder1 env).status j) = true := by
    rw [hA]
    unfold is_unfinished
    rw [hg, Bool.false_and, Bool.false_and]
    rfl
  have hmem : j ∈ unfinishedIdxs (afterLadder1 env).status :=
    (mem_unfinishedIdxs _ j).mpr ⟨by rw [hlenA]; exact hlen, hunf⟩
  have hrun : run_full_pipeline env = (afterLadder1 env, true) :=
    run_full_pipeline_stops env (List.ne_nil_of_mem hmem)
  refine ⟨by rw [hrun]; exact hA, ?_, by rw [hrun]; exact hmem, by rw [hrun]⟩
  rw [hrun]
  apply traceRestrict_all
  refine traceRestrict_trans _ _ _ _
    (traceRestrict_mono _ _ _ _ ?_ (migrationPhase_evs env.ext (loadPhase env))) key.2
  intro e he
  cases e with
  | persist s => exact ⟨rfl, rfl⟩
  | guidelineCall a b c => cases he
  | drafterCall a b c => cases he
  | imagesCall a b c => cases he
  | proposerCall s => cases he

/-- Witness for C7 at a concrete environment with one untouched topic
whose guideline call returns the empty string. -/
theorem C7_empty_guideline_scenario_witness :
    0 < (ensuredInit envOneIdle).length ∧
    (itemAt (ensuredInit envOneIdle) 0).guideline_generated = false ∧
    itemAt (run_full_pipeline envOneIdle).1.status 0 = itemAt (ensuredInit envOneIdle) 0 ∧
    0 ∈ unfinishedIdxs (run_full_pipeline envOneIdle).1.status ∧
    (run_full_pipeline envOneIdle).2 = true := by
  have hmain := C7_empty_guideline_scenario envOneIdle 0 (by decide) rfl rfl
    (fun k => rfl)
  exact ⟨by decide, rfl, hmain.1, hmain.2.2.1, hmain.2.2.2⟩

/-! ### The successful images stage in isolation -/

/-- Processing an item whose guideline and blog stages are done, whose
blog artifact is readable, and whose Illustration Generator call returns
`meta`: the flag is set, non-empty metadata stored, and the new state
persisted at once. -/
theorem processItem1_images_ready (x : Ext) (st : RunSt) (j : Nat) (meta : List String)
    (hgg : (itemAt st.status j).guideline_generated = true)
    (hbb : (itemAt st.status j).blog_generated = true)
    (hii : (itemAt st.status j).images_generated = false)
    (hpne : ¬ (itemAt st.status j).blog_path = "")
    (hread : readableAt st.fs (itemAt st.status j).blog_path)
    (hox : ∀ k b, x.genImages k (itemAt st.status j).title b = CallRes.ok meta) :
    processItem1 x st j =
      { status := st.status.set j
          { itemAt st.status j with
              images_generated := true
              images := if meta.isEmpty then (itemAt st.status j).images else meta }
        fs := st.fs
        ctr := st.ctr + 1
        trace := st.trace ++
          [Event.imagesCall j (itemAt st.status j) st.status,
           Event.persist (st.status.set j
             { itemAt st.status j with
                 images_generated := true
                 images := if meta.isEmpty then (itemAt st.status j).images else meta })] } := by
  obtain ⟨c, hc⟩ := hread
  have hts : tryReadSafe st.fs (itemAt st.status j).blog_path = some c := by
    unfold tryReadSafe
    rw [if_neg hpne, hc]
  unfold processItem1
  rw [guidelineStage1_skip x st j hgg, blogStage1_skipB x st j hbb]
  unfold imagesStage1 imagesCallDo
  dsimp only
  rw [if_pos (by rw [hbb, hii]; rfl), hts]
  dsimp only
  rw [hox _ c]
  simp [commitItem, persistNow, emit, bump]

theorem mem_of_traceRestrict (P : Event → Prop) (st st2 : RunSt)
    (h : TraceRestrict P st st2) (e : Event) (he : e ∈ st.trace) : e ∈ st2.trace := by
  obtain ⟨es, hes, _⟩ := h
  rw [hes]
  exact List.mem_append_left es he

theorem runLadder1_traceExt (x : Ext) (idxs : List Nat) (st : RunSt) :
    TraceRestrict (fun _ => True) st (runLadder1 x st idxs) :=
  traceRestrict_mono _ _ _ _ (fun _ _ => trivial) (runLadder1_evs x idxs st)

theorem runLadder2_traceExt (x : Ext) (idxs : List Nat) (st : RunSt) :
    TraceRestrict (fun _ => True) st (runLadder2 x st idxs) :=
  traceRestrict_mono _ _ _ _ (fun _ _ => trivial) (runLadder2_evs x idxs st)

theorem newTopicsPhase_traceExt (x : Ext) (st : RunSt) :
    TraceRestrict (fun _ => True) st (newTopicsPhase x st).1 := by
  unfold newTopicsPhase
  dsimp only
  split
  · exact ⟨[Event.proposerCall st.status], rfl, fun _ _ => trivial⟩
  · split
    · exact ⟨[Event.proposerCall st.status], rfl, fun _ _ => trivial⟩
    · rename_i raw heq hne
      refine traceRestrict_trans _ _ _ _
        (⟨[Event.proposerCall st.status,
           Event.persist (st.status ++ List.map (fun nt => mkNewItem nt.title nt.keyword)
             (acceptTopics (existingTitles st.status) 0 raw))],
          by simp [persistNow, emit, bump], fun _ _ => trivial⟩)
        (runLadder2_traceExt x _ _)

/-- Ladder-2 behaviour at a complete entry of the pre-append state: the
entry is untouched. -/
theorem ladder2_after_append_keep (x : Ext) (j : Nat) (s : List WorkItem) (st2 : RunSt)
    (rest : List WorkItem) (hst : st2.status = s ++ rest) (hlen : j < s.length)
    (hc : is_unfinished (itemAt s j) = false) (idxs : List Nat) :
    itemAt (runLadder2 x st2 idxs).status j = itemAt s j := by
  have hj2 : itemAt st2.status j = itemAt s j := by
    rw [hst]
    exact itemAt_append_left _ _ j hlen
  have hc2 : is_unfinished (itemAt st2.status j) = false := by
    rw [hj2]
    exact hc
  exact ((runLadder2_itemMonoAt x j idxs st2).2.2.2 hc2).trans hj2

/-- A complete, in-bounds entry is untouched by the new-topics phase. -/
theorem newTopicsPhase_item_keep (x : Ext) (st : RunSt) (j : Nat)
    (hlen : j < st.status.length)
    (hc : is_unfinished (itemAt st.status j) = false) :
    itemAt (newTopicsPhase x st).1.status j = itemAt st.status j := by
  unfold newTopicsPhase
  dsimp only
  split
  · rfl
  · split
    · rfl
    · exact ladder2_after_append_keep x j st.status _ _ rfl hlen hc _

/-- C8: images-stage completion policy.  For an entry whose guideline
and blog stages are done, whose images stage is pending, whose blog
artifact is readable, and whose Illustration Generator call returns any
result `meta` — including the empty one — the resume run sets
`images_generated`, stores non-empty metadata in the `images` field, and
a persisted snapshot with the flag set appears in the trace. -/
theorem C8_images_stage_best_effort (env : Env) (j : Nat) (meta : List String)
    (hlen : j < (ensuredInit env).length)
    (hgg : (itemAt (ensuredInit env) j).guideline_generated = true)
    (hbb : (itemAt (ensuredInit env) j).blog_generated = true)
    (hii : (itemAt (ensuredInit env) j).images_generated = false)
    (hpne : ¬ (itemAt (ensuredInit env) j).blog_path = "")
    (hread : readableAt env.ext.fs0 (itemAt (ensuredInit env) j).blog_path)
    (hox : ∀ k b, env.ext.genImages k (itemAt (ensuredInit env) j).title b =
      CallRes.ok meta) :
    (itemAt (run_full_pipeline env).1.status j).images_generated = true ∧
    (itemAt (run_full_pipeline env).1.status j).images =
      (if meta.isEmpty then (itemAt (ensuredInit env) j).images else meta) ∧
    ∃ snap, Event.persist snap ∈ (run_full_pipeline env).1.trace ∧
      (itemAt snap j).images_generated = true := by
  have hne0 : ¬ (loadPhase env).status = [] := by
    intro hnil
    have h0 : (ensuredInit env).length = 0 := by
      have h2 : (loadPhase env).status = ensuredInit env := rfl
      rw [h2] at hnil
      rw [hnil]
      rfl
    omega
  have hmig : afterMigration env = loadPhase env :=
    migrationPhase_noop env.ext (loadPhase env) hne0
  have hmemJ : j ∈ unfinishedIdxs (afterMigration env).status := by
    rw [hmig]
    refine (mem_unfinishedIdxs _ j).mpr ⟨hlen, ?_⟩
    show is_unfinished (itemAt (ensuredInit env) j) = true
    unfold is_unfinished
    rw [hgg, hbb, hii]
    rfl
  obtain ⟨pre, post, hsplit⟩ := List.append_of_mem hmemJ
  have hnd := unfinishedIdxs_nodup (afterMigration env).status
  rw [hsplit] at hnd
  have hnodup := List.nodup_append.mp hnd
  have hjpost : j ∉ post := (List.nodup_cons.mp hnodup.2.1).1
  have hjpre : j ∉ pre := fun hj => hnodup.2.2 hj (List.mem_cons_self _ _)
  have hframeA : itemAt (runLadder1 env.ext (afterMigration env) pre).status j =
      itemAt (ensuredInit env) j := by
    have h1 : itemAt (runLadder1 env.ext (afterMigration env) pre).status j =
        itemAt (afterMigration env).status j :=
      runLadder1_frame env.ext j pre (afterMigration env)
        (fun i hi he => hjpre (he ▸ hi))
    rw [h1, hmig]
    rfl
  have hfsA : readableAt (runLadder1 env.ext (afterMigration env) pre).fs
      (itemAt (ensuredInit env) j).blog_path := by
    apply runLadder1_fs
    rw [hmig]
    exact hread
  have heqB := processItem1_images_ready env.ext
    (runLadder1 env.ext (afterMigration env) pre) j meta
    (by rw [hframeA]; exact hgg)
    (by rw [hframeA]; exact hbb)
    (by rw [hframeA]; exact hii)
    (by rw [hframeA]; exact hpne)
    (by rw [hframeA]; exact hfsA)
    (fun k b => by rw [hframeA]; exact hox k b)
  have hlenA : (runLadder1 env.ext (afterMigration env) pre).status.length =
      (ensuredInit env).length := by
    have ht := runLadder1_titles env.ext pre (afterMigration env)
    have h2 := map_title_length _ _ ht
    rw [h2, hmig]
    rfl
  have hts2 : ({ itemAt (runLadder1 env.ext (afterMigration env) pre).status j with
      images_generated := true
      images := if meta.isEmpty
        then (itemAt (runLadder1 env.ext (afterMigration env) pre).status j).images
        else meta } : WorkItem) =
      { itemAt (ensuredInit env) j with
          images_generated := true
          images := if meta.isEmpty then (itemAt (ensuredInit env) j).images else meta } := by
    rw [hframeA]
  have hsetJ : itemAt
      ((runLadder1 env.ext (afterMigration env) pre).status.set j
        { itemAt (runLadder1 env.ext (afterMigration env) pre).status j with
            images_generated := true
            images := if meta.isEmpty
              then (itemAt (runLadder1 env.ext (afterMigration env) pre).status j).images
              else meta }) j =
      { itemAt (ensuredInit env) j with
          images_generated := true
          images := if meta.isEmpty then (itemAt (ensuredInit env) j).images else meta } := by
    rw [itemAt_set_self _ j _ (by rw [hlenA]; exact hlen)]
    exact hts2
  have hAL : afterLadder1 env =
      runLadder1 env.ext
        (processItem1 env.ext (runLadder1 env.ext (afterMigration env) pre) j) post := by
    show runLadder1 env.ext (afterMigration env)
      (unfinishedIdxs (afterMigration env).status) = _
    rw [hsplit, runLadder1_append]
    rfl
  have hCitem : itemAt (afterLadder1 env).status j =
      { itemAt (ensuredInit env) j with
          images_generated := true
          images := if meta.isEmpty then (itemAt (ensuredInit env) j).images else meta } := by
    rw [hAL]
    rw [runLadder1_frame env.ext j post _ (fun i hi he => hjpost (he ▸ hi))]
    rw [heqB]
    exact hsetJ
  have hpersistB : Event.persist
      ((runLadder1 env.ext (afterMigration env) pre).status.set j
        { itemAt (runLadder1 env.ext (afterMigration env) pre).status j with
            images_generated := true
            images := if meta.isEmpty
              then (itemAt (runLadder1 env.ext (afterMigration env) pre).status j).images
              else meta }) ∈
      (processItem1 env.ext (runLadder1 env.ext (afterMigration env) pre) j).trace := by
    rw [heqB]
    show _ ∈ _ ++ _
    refine List.mem_append_right _ ?_
    exact List.mem_cons_of_mem _ (List.mem_cons_self _ _)
  have hpersistC : Event.persist
      ((runLadder1 env.ext (afterMigration env) pre).status.set j
        { itemAt (runLadder1 env.ext (afterMigration env) pre).status j with
            images_generated := true
            images := if meta.isEmpty
              then (itemAt (runLadder1 env.ext (afterMigration env) pre).status j).images
              else meta }) ∈ (afterLadder1 env).trace := by
    rw [hAL]
    exact mem_of_traceRestrict _ _ _ (runLadder1_traceExt env.ext post _) _ hpersistB
  have hsnapJ : (itemAt
      ((runLadder1 env.ext (afterMigration env) pre).status.set j
        { itemAt (runLadder1 env.ext (afterMigration env) pre).status j with
            images_generated := true
            images := if meta.isEmpty
              then (itemAt (runLadder1 env.ext (afterMigration env) pre).status j).images
              else meta }) j).images_generated = true := by
    rw [hsetJ]
  have hcomplete : is_unfinished (itemAt (afterLadder1 env).status j) = false := by
    rw [hCitem]
    simp [is_unfinished, hgg, hbb]
  have hlenC : j < (afterLadder1 env).status.length := by
    have ht := runLadder1_titles env.ext
      (unfinishedIdxs (afterMigration env).status) (afterMigration env)
    have h2 := map_title_length _ _ ht
    have h3 : (afterLadder1 env).status.length = (ensuredInit env).length := by
      show (runLadder1 env.ext (afterMigration env)
        (unfinishedIdxs (afterMigration env).status)).status.length = _
      rw [h2, hmig]
      rfl
    rw [h3]
    exact hlen
  by_cases hu : unfinishedIdxs (afterLadder1 env).status = []
  · rw [run_full_pipeline_proposes env hu]
    have hkeep := newTopicsPhase_item_keep env.ext (afterLadder1 env) j hlenC hcomplete
    refine ⟨?_, ?_, ?_⟩
    · rw [hkeep, hCitem]
    · rw [hkeep, hCitem]
    · exact ⟨_, mem_of_traceRestrict _ _ _
        (newTopicsPhase_traceExt env.ext (afterLadder1 env)) _ hpersistC, hsnapJ⟩
  · rw [run_full_pipeline_stops env hu]
    refine ⟨?_, ?_, ?_⟩
    · show (itemAt (afterLadder1 env).status j).images_generated = true
      rw [hCitem]
    · show (itemAt (afterLadder1 env).status j).images = _
      rw [hCitem]
    · exact ⟨_, hpersistC, hsnapJ⟩

/-- A raw status entry whose guideline and blog stages are already
done. -/
def rawBlogDone : RawItem :=
  { title := some "Solar", keyword := some ""
    guideline_generated := some true, blog_generated := some true
    images_generated := some false
    guideline_path := some "g.txt", blog_path := some "b.md", images := some [] }

/-- A filesystem holding just the blog artifact. -/
def fsBlog : FS := fun p => if p = "b.md" then FileState.content "body" else FileState.absent

/-- Environment for the images-stage scenario. -/
def envBlogDone : Env :=
  { statusLoad := StatusLoad.parsed [rawBlogDone], ext := { idleExt with fs0 := fsBlog } }

/-- Witness for C8 at a concrete environment whose tracked topic has its
guideline and blog stages done and a readable blog artifact, with the
Illustration Generator returning the empty result. -/
theorem C8_images_stage_best_effort_witness :
    (itemAt (ensuredInit envBlogDone) 0).blog_generated = true ∧
    (itemAt (ensuredInit envBlogDone) 0).images_generated = false ∧
    (itemAt (run_full_pipeline envBlogDone).1.status 0).images_generated = true ∧
    (∃ snap, Event.persist snap ∈ (run_full_pipeline envBlogDone).1.trace ∧
      (itemAt snap 0).images_generated = true) := by
  have h := C8_images_stage_best_effort envBlogDone 0 [] (by decide) rfl rfl rfl
    (by decide) ⟨"body", by decide⟩ (fun k b => rfl)
  exact ⟨rfl, rfl, h.1, h.2.2⟩

/-! ### Stripping is idempotent -/

theorem stripWs_idem (cs : List Char) : stripWs (stripWs cs) = stripWs cs := by
  unfold stripWs
  have hA : List.rdropWhile Char.isWhitespace
      ((cs.rdropWhile Char.isWhitespace).dropWhile Char.isWhitespace) =
      (cs.rdropWhile Char.isWhitespace).dropWhile Char.isWhitespace := by
    rw [List.rdropWhile_eq_self_iff]
    intro hl
    obtain ⟨t, ht⟩ :=
      List.dropWhile_suffix (l := cs.rdropWhile Char.isWhitespace) Char.isWhitespace
    have hBne : cs.rdropWhile Char.isWhitespace ≠ [] := by
      intro hnil
      apply hl
      rw [hnil]
      rfl
    have hlast := List.rdropWhile_last_not Char.isWhitespace cs hBne
    have h1 := List.getLast?_eq_getLast_of_ne_nil hl
    have h2 := List.getLast?_eq_getLast_of_ne_nil hBne
    have h3 : (cs.rdropWhile Char.isWhitespace).getLast? =
        ((cs.rdropWhile Char.isWhitespace).dropWhile Char.isWhitespace).getLast? := by
      conv_lhs => rw [← ht]
      exact List.getLast?_append_of_ne_nil t hl
    have h4 : ((cs.rdropWhile Char.isWhitespace).dropWhile Char.isWhitespace).getLast hl =
        (cs.rdropWhile Char.isWhitespace).getLast hBne := by
      have h5 := h2.symm.trans (h3.trans h1)
      exact (Option.some.inj h5).symm
    rw [h4]
    exact hlast
  rw [hA, List.dropWhile_idempotent]

theorem pyStrip_idem (s : String) : pyStrip (pyStrip s) = pyStrip s := by
  unfold pyStrip
  rw [stripWs_idem]

/-! ### Acceptance-filter lemmas -/

theorem normalize_title_stripped (it : TopicItem) :
    pyStrip (normalize_topic_item it).title = (normalize_topic_item it).title := by
  cases it with
  | dict t n k ks => exact pyStrip_idem _
  | str s => exact pyStrip_idem _

theorem acceptTopics_mem :
    ∀ (raw : List TopicItem) (existing : List String) (count : Nat) (nt : TopicFields),
      nt ∈ acceptTopics existing count raw →
      pyLower nt.title ∉ existing ∧ pyLower nt.title ≠ "" ∧ pyStrip nt.title = nt.title
  | [], _, _, nt, h => absurd h (List.not_mem_nil nt)
  | item :: rest, existing, count, nt, h => by
    unfold acceptTopics at h
    dsimp only at h
    split at h
    · exact acceptTopics_mem rest existing count nt h
    · rename_i hguard
      push_neg at hguard
      split at h
      · simp only [List.mem_singleton] at h
        subst h
        exact ⟨hguard.2, hguard.1, normalize_title_stripped item⟩
      · simp only [List.mem_cons] at h
        rcases h with rfl | h
        · exact ⟨hguard.2, hguard.1, normalize_title_stripped item⟩
        · have ih := acceptTopics_mem rest
            (pyLower (normalize_topic_item item).title :: existing) (count + 1) nt h
          exact ⟨fun hmem => ih.1 (List.mem_cons_of_mem _ hmem), ih.2⟩

theorem acceptTopics_nodup :
    ∀ (raw : List TopicItem) (existing : List String) (count : Nat),
      ((acceptTopics existing count raw).map (fun nt => pyLower nt.title)).Nodup
  | [], _, _ => List.nodup_nil
  | item :: rest, existing, count => by
    unfold acceptTopics
    dsimp only
    split
    · exact acceptTopics_nodup rest existing count
    · split
      · simp
      · rw [List.map_cons]
        refine List.nodup_cons.mpr ⟨?_, acceptTopics_nodup rest _ (count + 1)⟩
        intro hmem
        simp only [List.mem_map] at hmem
        obtain ⟨nt, hin, heqt⟩ := hmem
        have hni := (acceptTopics_mem rest _ _ nt hin).1
        exact hni (by rw [heqt]; exact List.mem_cons_self _ _)

/-- The normalized title of an entry. -/
def normOf (t : WorkItem) : String := normTitle t.title

theorem titles_to_norm (s s2 : List WorkItem)
    (h : s2.map (fun t => t.title) = s.map (fun t => t.title)) :
    s2.map normOf = s.map normOf := by
  have h1 : s2.map normOf = (s2.map (fun t => t.title)).map normTitle := by
    rw [List.map_map]
    rfl
  have h2 : s.map normOf = (s.map (fun t => t.title)).map normTitle := by
    rw [List.map_map]
    rfl
  rw [h1, h2, h]

theorem accepted_norm (nt : TopicFields) (hstr : pyStrip nt.title = nt.title) :
    normOf (mkNewItem nt.title nt.keyword) = pyLower nt.title := by
  unfold normOf normTitle mkNewItem
  dsimp only
  rw [hstr]

theorem accepted_not_norm (s : List WorkItem) (tlc : String)
    (hne : tlc ≠ "") (hnin : tlc ∉ existingTitles s) :
    tlc ∉ s.map normOf := by
  intro hmem
  simp only [List.mem_map] at hmem
  obtain ⟨t, ht, htl⟩ := hmem
  by_cases hte : t.title = ""
  · apply hne
    rw [← htl]
    show normTitle t.title = ""
    rw [hte]
    rfl
  · apply hnin
    unfold existingTitles
    simp only [List.mem_map, List.mem_filter]
    exact ⟨t, ⟨ht, bne_iff_ne.mpr hte⟩, htl⟩

theorem migrationPhase_nofiles (x : Ext) (st : RunSt)
    (h1 : x.topicsFileExists = false) (h2 : x.allTopicsFileExists = false) :
    migrationPhase x st = st := by
  unfold migrationPhase
  split
  · simp [h1, h2]
  · rfl

theorem nodup_norm_of_ladder2 (x : Ext) (st2 : RunSt) (idxs : List Nat)
    (h : (st2.status.map normOf).Nodup) :
    ((runLadder2 x st2 idxs).status.map normOf).Nodup := by
  rw [titles_to_norm _ _ (runLadder2_titles x idxs st2)]
  exact h

/-- A legacy flat topic file containing the same title twice (differing
only in letter case). -/
def envLegacyDup : Env :=
  { statusLoad := StatusLoad.absent
    ext := { idleExt with
      topicsFileExists := true
      topicsFileItems := [TopicItem.str "A", TopicItem.str "a"] } }

/-- C3 counterexample: the legacy migration performs no deduplication, so
a legacy topic list holding the titles `"A"` and `"a"` yields two
WorkItems whose normalized (lowercased, trimmed) titles are equal after a
resume run — refuting both the pairwise-distinct invariant and the
claimed migration deduplication. -/
theorem C3_no_duplicate_titles_counterexample :
    (run_full_pipeline envLegacyDup).1.status.map (fun t => t.title) = ["A", "a"] ∧
    normTitle "A" = normTitle "a" ∧
    ¬ ((run_full_pipeline envLegacyDup).1.status.map normOf).Nodup := by
  refine ⟨by decide, by decide, ?_⟩
  intro h
  have hmap : (run_full_pipeline envLegacyDup).1.status.map normOf = ["a", "a"] := by decide
  rw [hmap] at h
  rcases List.nodup_cons.mp h with ⟨hni, _⟩
  exact hni (List.mem_cons_self _ _)

/-- C3 amended: the legacy migration seeds one WorkItem per legacy entry
without deduplication, so duplicate normalized titles can enter the state
through it; away from that path the invariant holds: if the loaded state
has pairwise-distinct normalized titles and no legacy migration takes
place (the state is non-empty, or neither legacy topics file exists),
then the state after a resume run still has pairwise-distinct normalized
titles — in particular all newly accepted topics are deduplicated against
existing normalized titles and each other. -/
theorem C3_no_duplicate_titles_amended (env : Env)
    (hdup : ((ensuredInit env).map normOf).Nodup)
    (hnomig : ensuredInit env ≠ [] ∨
      (env.ext.topicsFileExists = false ∧ env.ext.allTopicsFileExists = false)) :
    ((run_full_pipeline env).1.status.map normOf).Nodup := by
  have hmig : afterMigration env = loadPhase env := by
    rcases hnomig with h | ⟨h1, h2⟩
    · exact migrationPhase_noop env.ext (loadPhase env) h
    · exact migrationPhase_nofiles env.ext (loadPhase env) h1 h2
  have hnormA : (afterLadder1 env).status.map normOf = (ensuredInit env).map normOf := by
    have ht := runLadder1_titles env.ext
      (unfinishedIdxs (afterMigration env).status) (afterMigration env)
    have h2 := titles_to_norm _ _ ht
    show List.map normOf (runLadder1 env.ext (afterMigration env)
      (unfinishedIdxs (afterMigration env).status)).status = _
    rw [h2, hmig]
    rfl
  have hdupA : ((afterLadder1 env).status.map normOf).Nodup := by
    rw [hnormA]
    exact hdup
  by_cases hu : unfinishedIdxs (afterLadder1 env).status = []
  · rw [run_full_pipeline_proposes env hu]
    unfold newTopicsPhase
    dsimp only
    split
    · exact hdupA
    · split
      · exact hdupA
      · rename_i raw heq hne
        apply nodup_norm_of_ladder2
        show (((afterLadder1 env).status ++
          (acceptTopics (existingTitles (afterLadder1 env).status) 0 raw).map
            (fun nt => mkNewItem nt.title nt.keyword)).map normOf).Nodup
        rw [List.map_append]
        have hmapeq : ((acceptTopics (existingTitles (afterLadder1 env).status) 0 raw).map
            (fun nt => mkNewItem nt.title nt.keyword)).map normOf =
            (acceptTopics (existingTitles (afterLadder1 env).status) 0 raw).map
              (fun nt => pyLower nt.title) := by
          rw [List.map_map]
          apply List.map_congr_left
          intro nt hin
          exact accepted_norm nt (acceptTopics_mem raw _ 0 nt hin).2.2
        refine List.Nodup.append hdupA ?_ ?_
        · rw [hmapeq]
          exact acceptTopics_nodup raw _ 0
        · intro a ha hb
          rw [hmapeq] at hb
          simp only [List.mem_map] at hb
          obtain ⟨nt, hin, heq2⟩ := hb
          have hf := acceptTopics_mem raw _ 0 nt hin
          have hnot := accepted_not_norm (afterLadder1 env).status (pyLower nt.title)
            hf.2.1 hf.1
          rw [heq2] at hnot
          exact hnot ha
  · rw [run_full_pipeline_stops env hu]
    exact hdupA

/-- Witness for the amended C3 at a concrete environment. -/
theorem C3_no_duplicate_titles_amended_witness :
    ((ensuredInit trivEnv).map normOf).Nodup ∧
    (trivEnv.ext.topicsFileExists = false ∧ trivEnv.ext.allTopicsFileExists = false) ∧
    ((run_full_pipeline trivEnv).1.status.map normOf).Nodup := by
  have h1 : ((ensuredInit trivEnv).map normOf).Nodup := by decide
  have h2 : trivEnv.ext.topicsFileExists = false ∧
      trivEnv.ext.allTopicsFileExists = false := ⟨rfl, rfl⟩
  exact ⟨h1, h2, C3_no_duplicate_titles_amended trivEnv h1 (Or.inr h2)⟩

/-! ### The spec-side acceptance filter (C5 refinement) -/

/-- Acceptance filter as the spec words it: walk the response in order,
drop every entry whose normalized title is empty or equal to the
normalized title of an existing WorkItem or of an earlier accepted entry,
and stop accepting once `n` entries have been accepted.  `n` counts the
acceptances still allowed. -/
def specAccept : List String → Nat → List TopicItem → List TopicFields
  | _, _, [] => []
  | _, 0, _ :: _ => []
  | known, n + 1, item :: rest =>
    let nt := normalize_topic_item item
    let tlc := pyLower nt.title
    if tlc = "" ∨ tlc ∈ known then specAccept known (n + 1) rest
    else nt :: specAccept (tlc :: known) n rest

theorem specAccept_zero (known : List String) (l : List TopicItem) :
    specAccept known 0 l = [] := by
  cases l <;> rfl

theorem acceptTopics_eq_specAccept :
    ∀ (raw : List TopicItem) (known : List String) (count : Nat),
      count < NUM_NEW_TOPICS →
      acceptTopics known count raw = specAccept known (NUM_NEW_TOPICS - count) raw
  | [], known, count, _ => by
    cases h2 : NUM_NEW_TOPICS - count <;> rfl
  | item :: rest, known, count, h => by
    have h2 : count < 2 := h
    unfold acceptTopics
    dsimp only
    match count, h2 with
    | 0, _ =>
      show (if _ then acceptTopics known 0 rest else _) = specAccept known 2 (item :: rest)
      unfold specAccept
      dsimp only
      split
      · exact acceptTopics_eq_specAccept rest known 0 (by decide)
      · rw [if_neg (by decide)]
        rw [acceptTopics_eq_specAccept rest _ 1 (by decide)]
        rfl
    | 1, _ =>
      show (if _ then acceptTopics known 1 rest else _) = specAccept known 1 (item :: rest)
      unfold specAccept
      dsimp only
      split
      · exact acceptTopics_eq_specAccept rest known 1 (by decide)
      · rw [if_pos (by decide)]
        rw [specAccept_zero]

/-- C5: new-topic acceptance.  When no incomplete entry remains after the
first ladder and the Topic Proposer returns `raw`, the accepted entries
are exactly the spec's filter (drop empty or already-known normalized
titles, stop at `NUM_NEW_TOPICS`); every accepted entry is appended as a
fully incomplete WorkItem; the final state's titles are the old titles
followed by exactly the accepted titles; when anything was accepted the
appended whole state is persisted; and the Topic Proposer is called
exactly once in the whole run. -/
theorem C5_new_topic_acceptance (env : Env) (raw : List TopicItem)
    (hdone : unfinishedIdxs (afterLadder1 env).status = [])
    (hraw : env.ext.proposeTopics (afterLadder1 env).ctr = CallRes.ok raw) :
    acceptedOf (afterLadder1 env).status raw =
      specAccept (existingTitles (afterLadder1 env).status) NUM_NEW_TOPICS raw ∧
    (∀ nt ∈ acceptedOf (afterLadder1 env).status raw,
      (mkNewItem nt.title nt.keyword).guideline_generated = false ∧
      (mkNewItem nt.title nt.keyword).blog_generated = false ∧
      (mkNewItem nt.title nt.keyword).images_generated = false) ∧
    (run_full_pipeline env).1.status.map (fun t => t.title) =
      (afterLadder1 env).status.map (fun t => t.title) ++
        (acceptedOf (afterLadder1 env).status raw).map (fun nt => nt.title) ∧
    (acceptedOf (afterLadder1 env).status raw ≠ [] →
      Event.persist ((afterLadder1 env).status ++
        (acceptedOf (afterLadder1 env).status raw).map
          (fun nt => mkNewItem nt.title nt.keyword)) ∈ (run_full_pipeline env).1.trace) ∧
    List.countP isProposerEv (run_full_pipeline env).1.trace = 1 := by
  have hcount0 : List.countP isProposerEv (afterLadder1 env).trace = 0 := by
    rw [List.countP_eq_zero]
    intro e he hcontra
    rw [afterLadder1_noProposer env e he] at hcontra
    exact Bool.false_ne_true hcontra
  rw [run_full_pipeline_proposes env hdone]
  refine ⟨acceptTopics_eq_specAccept raw _ 0 (by decide),
    fun nt _ => ⟨rfl, rfl, rfl⟩, ?_, ?_, ?_⟩ <;>
    by_cases hacc :
      (acceptTopics (existingTitles (afterLadder1 env).status) 0 raw).isEmpty = true
  case pos =>
    have haccnil : acceptedOf (afterLadder1 env).status raw = [] := by
      rwa [List.isEmpty_iff] at hacc
    have hntp : newTopicsPhase env.ext (afterLadder1 env) =
        (bump (emit (afterLadder1 env)
          (Event.proposerCall (afterLadder1 env).status)), true) := by
      unfold newTopicsPhase
      dsimp only
      rw [show env.ext.proposeTopics (emit (afterLadder1 env)
        (Event.proposerCall (afterLadder1 env).status)).ctr = CallRes.ok raw from hraw]
      dsimp only
      rw [if_pos hacc]
    rw [hntp, haccnil]
    show (afterLadder1 env).status.map (fun t => t.title) =
      (afterLadder1 env).status.map (fun t => t.title) ++ List.map _ []
    rw [List.map_nil, List.append_nil]
  case neg =>
    have hntp : newTopicsPhase env.ext (afterLadder1 env) =
        (runLadder2 env.ext
          (persistNow
            { status := (afterLadder1 env).status ++
                (acceptedOf (afterLadder1 env).status raw).map
                  (fun nt => mkNewItem nt.title nt.keyword)
              fs := (afterLadder1 env).fs
              ctr := (afterLadder1 env).ctr + 1
              trace := (afterLadder1 env).trace ++
                [Event.proposerCall (afterLadder1 env).status] })
          (unfinishedIdxs ((afterLadder1 env).status ++
            (acceptedOf (afterLadder1 env).status raw).map
              (fun nt => mkNewItem nt.title nt.keyword))), true) := by
      unfold newTopicsPhase
      dsimp only
      rw [show env.ext.proposeTopics (emit (afterLadder1 env)
        (Event.proposerCall (afterLadder1 env).status)).ctr = CallRes.ok raw from hraw]
      dsimp only
      rw [if_neg hacc]
      rfl
    rw [hntp]
    show (runLadder2 env.ext _ _).status.map (fun t => t.title) = _
    rw [runLadder2_titles]
    show ((afterLadder1 env).status ++
      (acceptedOf (afterLadder1 env).status raw).map
        (fun nt => mkNewItem nt.title nt.keyword)).map (fun t => t.title) = _
    rw [List.map_append, List.map_map]
    rfl
  case pos =>
    have haccnil : acceptedOf (afterLadder1 env).status raw = [] := by
      rwa [List.isEmpty_iff] at hacc
    intro hne
    exact absurd haccnil hne
  case neg =>
    have hntp : newTopicsPhase env.ext (afterLadder1 env) =
        (runLadder2 env.ext
          (persistNow
            { status := (afterLadder1 env).status ++
                (acceptedOf (afterLadder1 env).status raw).map
                  (fun nt => mkNewItem nt.title nt.keyword)
              fs := (afterLadder1 env).fs
              ctr := (afterLadder1 env).ctr + 1
              trace := (afterLadder1 env).trace ++
                [Event.proposerCall (afterLadder1 env).status] })
          (unfinishedIdxs ((afterLadder1 env).status ++
            (acceptedOf (afterLadder1 env).status raw).map
              (fun nt => mkNewItem nt.title nt.keyword))), true) := by
      unfold newTopicsPhase
      dsimp only
      rw [show env.ext.proposeTopics (emit (afterLadder1 env)
        (Event.proposerCall (afterLadder1 env).status)).ctr = CallRes.ok raw from hraw]
      dsimp only
      rw [if_neg hacc]
      rfl
    intro _
    rw [hntp]
    refine mem_of_traceRestrict _ _ _ (runLadder2_traceExt env.ext _ _) _ ?_
    show _ ∈ ((afterLadder1 env).trace ++
      [Event.proposerCall (afterLadder1 env).status]) ++
      [Event.persist ((afterLadder1 env).status ++
        (acceptedOf (afterLadder1 env).status raw).map
          (fun nt => mkNewItem nt.title nt.keyword))]
    exact List.mem_append_right _ (List.mem_cons_self _ _)
  case pos =>
    have hntp : newTopicsPhase env.ext (afterLadder1 env) =
        (bump (emit (afterLadder1 env)
          (Event.proposerCall (afterLadder1 env).status)), true) := by
      unfold newTopicsPhase
      dsimp only
      rw [show env.ext.proposeTopics (emit (afterLadder1 env)
        (Event.proposerCall (afterLadder1 env).status)).ctr = CallRes.ok raw from hraw]
      dsimp only
      rw [if_pos hacc]
    rw [hntp]
    show List.countP isProposerEv ((afterLadder1 env).trace ++
      [Event.proposerCall (afterLadder1 env).status]) = 1
    rw [List.countP_append, hcount0]
    rfl
  case neg =>
    have hntp : newTopicsPhase env.ext (afterLadder1 env) =
        (runLadder2 env.ext
          (persistNow
            { status := (afterLadder1 env).status ++
                (acceptedOf (afterLadder1 env).status raw).map
                  (fun nt => mkNewItem nt.title nt.keyword)
              fs := (afterLadder1 env).fs
              ctr := (afterLadder1 env).ctr + 1
              trace := (afterLadder1 env).trace ++
                [Event.proposerCall (afterLadder1 env).status] })
          (unfinishedIdxs ((afterLadder1 env).status ++
            (acceptedOf (afterLadder1 env).status raw).map
              (fun nt => mkNewItem nt.title nt.keyword))), true) := by
      unfold newTopicsPhase
      dsimp only
      rw [show env.ext.proposeTopics (emit (afterLadder1 env)
        (Event.proposerCall (afterLadder1 env).status)).ctr = CallRes.ok raw from hraw]
      dsimp only
      rw [if_neg hacc]
      rfl
    rw [hntp]
    obtain ⟨es, hes, hP⟩ := runLadder2_evs env.ext
      (unfinishedIdxs ((afterLadder1 env).status ++
        (acceptedOf (afterLadder1 env).status raw).map
          (fun nt => mkNewItem nt.title nt.keyword)))
      (persistNow
        { status := (afterLadder1 env).status ++
            (acceptedOf (afterLadder1 env).status raw).map
              (fun nt => mkNewItem nt.title nt.keyword)
          fs := (afterLadder1 env).fs
          ctr := (afterLadder1 env).ctr + 1
          trace := (afterLadder1 env).trace ++
            [Event.proposerCall (afterLadder1 env).status] })
    show List.countP isProposerEv (runLadder2 env.ext _ _).trace = 1
    rw [hes]
    show List.countP isProposerEv ((((afterLadder1 env).trace ++
      [Event.proposerCall (afterLadder1 env).status]) ++
      [Event.persist ((afterLadder1 env).status ++
        (acceptedOf (afterLadder1 env).status raw).map
          (fun nt => mkNewItem nt.title nt.keyword))]) ++ es) = 1
    rw [List.countP_append, List.countP_append, List.countP_append, hcount0]
    have hes0 : List.countP isProposerEv es = 0 := by
      rw [List.countP_eq_zero]
      intro e he hcontra
      rcases hP e he with ⟨i, _, hidx⟩ | hp
      · rw [notProposer_of_idx e i hidx] at hcontra
        exact Bool.false_ne_true hcontra
      · rw [notProposer_of_persist e hp] at hcontra
        exact Bool.false_ne_true hcontra
    rw [hes0]
    rfl

/-- The proposer response used by the C5 witness: one fresh title, a
case- and whitespace-variant duplicate of it, and an empty title. -/
def rawPropose : List TopicItem :=
  [TopicItem.str "T one", TopicItem.str " t one ", TopicItem.str ""]

/-- Environment whose Topic Proposer returns `rawPropose`. -/
def envPropose : Env :=
  { statusLoad := StatusLoad.absent
    ext := { idleExt with proposeTopics := fun _ => CallRes.ok rawPropose } }

/-- Witness for C5 at a concrete environment. -/
theorem C5_new_topic_acceptance_witness :
    unfinishedIdxs (afterLadder1 envPropose).status = [] ∧
    envPropose.ext.proposeTopics (afterLadder1 envPropose).ctr = CallRes.ok rawPropose ∧
    acceptedOf (afterLadder1 envPropose).status rawPropose =
      specAccept (existingTitles (afterLadder1 envPropose).status)
        NUM_NEW_TOPICS rawPropose ∧
    acceptedOf (afterLadder1 envPropose).status rawPropose = [⟨"T one", ""⟩] ∧
    List.countP isProposerEv (run_full_pipeline envPropose).1.trace = 1 := by
  have h := C5_new_topic_acceptance envPropose rawPropose rfl rfl
  exact ⟨rfl, rfl, h.1, by decide, h.2.2.2.2⟩

/-! ### C4: no regeneration while the guideline artifact is readable -/

theorem tryReadSafe_of_readable (fs : FS) (p : String) (hp : ¬ p = "")
    (hr : readableAt fs p) : ∃ c, tryReadSafe fs p = some c := by
  obtain ⟨c, hc⟩ := hr
  refine ⟨c, ?_⟩
  unfold tryReadSafe
  rw [if_neg hp, hc]

theorem notGCall_of_idx (j k : Nat) (e : Event) (h : evIdxOf e = some k)
    (hk : ¬ k = j) : isGCallAt j e = false :=
  (notAbout_of_idx j k e h hk).1

theorem notGCall_of_persist (j : Nat) (e : Event) (h : isPersistEv e = true) :
    isGCallAt j e = false := by
  cases e with
  | guidelineCall a b c => exact Bool.noConfusion h
  | drafterCall a b c => rfl
  | imagesCall a b c => rfl
  | proposerCall s => rfl
  | persist s => rfl

/-- The C4 invariant for index `j`: the guideline flag is set and the
recorded artifact path is non-empty and readable. -/
def C4P (j : Nat) (st : RunSt) : Prop :=
  (itemAt st.status j).guideline_generated = true ∧
  ¬ (itemAt st.status j).guideline_path = "" ∧
  readableAt st.fs (itemAt st.status j).guideline_path

theorem c4p_mono (j : Nat) (st st2 : RunSt)
    (hm : ItemMonoAt j st.status st2.status)
    (hfs : ∀ p, readableAt st.fs p → readableAt st2.fs p)
    (h : C4P j st) : C4P j st2 := by
  obtain ⟨hg, hp, hr⟩ := h
  obtain ⟨hmg, _, _, _⟩ := hm
  obtain ⟨hg2, hpath⟩ := hmg hg
  refine ⟨hg2, ?_, ?_⟩
  · rw [hpath]
    exact hp
  · rw [hpath]
    exact hfs _ hr

theorem processItem1_c4p (x : Ext) (st : RunSt) (k j : Nat) (h : C4P j st) :
    C4P j (processItem1 x st k) :=
  c4p_mono j st _ (processItem1_itemMonoAt x st k j)
    (fun p hp => processItem1_fs x st k p hp) h

theorem blogStage1_noGCall (x : Ext) (st : RunSt) (j : Nat)
    (hp : ¬ (itemAt st.status j).guideline_path = "")
    (hr : readableAt st.fs (itemAt st.status j).guideline_path) :
    TraceRestrict (fun e => isGCallAt j e = false) st (blogStage1 x st j) := by
  obtain ⟨es, hes, hmem⟩ := blogStage1_trace x st j
  refine ⟨es, hes, fun e he => ?_⟩
  rcases hmem e he with ⟨_, _, hnone⟩ | ⟨rfl, _⟩ | rfl
  · obtain ⟨c, hc⟩ := tryReadSafe_of_readable st.fs _ hp hr
    rw [hc] at hnone
    exact Option.noConfusion hnone
  · rfl
  · rfl

theorem imagesStage1_noGCall (x : Ext) (st : RunSt) (j : Nat) :
    TraceRestrict (fun e => isGCallAt j e = false) st (imagesStage1 x st j) := by
  obtain ⟨es, hes, hmem⟩ := imagesStage1_trace x st j
  refine ⟨es, hes, fun e he => ?_⟩
  rcases hmem e he with ⟨rfl, _⟩ | ⟨rfl, _⟩ | rfl
  · rfl
  · rfl
  · rfl

theorem processItem1_noGCall_self (x : Ext) (st : RunSt) (j : Nat)
    (h : C4P j st) :
    TraceRestrict (fun e => isGCallAt j e = false) st (processItem1 x st j) := by
  obtain ⟨hg, hp, hr⟩ := h
  unfold processItem1
  rw [guidelineStage1_skip x st j hg]
  exact traceRestrict_trans _ _ _ _ (blogStage1_noGCall x st j hp hr)
    (imagesStage1_noGCall x _ j)

theorem processItem1_noGCall_other (x : Ext) (st : RunSt) (k j : Nat)
    (hk : ¬ k = j) :
    TraceRestrict (fun e => isGCallAt j e = false) st (processItem1 x st k) := by
  refine traceRestrict_mono _ _ _ _ ?_ (processItem1_evs x st k)
  intro e he
  rcases he with hidx | hpst
  · exact notGCall_of_idx j k e hidx hk
  · exact notGCall_of_persist j e hpst

theorem runLadder1_noGCall (x : Ext) (j : Nat) :
    ∀ (idxs : List Nat) (st : RunSt), C4P j st →
      TraceRestrict (fun e => isGCallAt j e = false) st (runLadder1 x st idxs)
  | [], st, _ => traceRestrict_refl _ st
  | k :: rest, st, h => by
    have h1 : TraceRestrict (fun e => isGCallAt j e = false) st
        (processItem1 x st k) := by
      by_cases hk : k = j
      · subst hk
        exact processItem1_noGCall_self x st k h
      · exact processItem1_noGCall_other x st k j hk
    exact traceRestrict_trans _ _ _ _ h1
      (runLadder1_noGCall x j rest (processItem1 x st k) (processItem1_c4p x st k j h))

/-- C4: at most one regeneration on success.  When a tracked entry's
guideline flag is already set and its recorded `guideline_path` names a
readable artifact of the starting filesystem, a resume run never invokes
the Guideline Expander for that entry: the article stage loads the
guideline text back from the artifact, and would regenerate only were the
artifact missing or unreadable. -/
theorem C4_no_regeneration_on_success (env : Env) (j : Nat)
    (hlen : j < (ensuredInit env).length)
    (hg : (itemAt (ensuredInit env) j).guideline_generated = true)
    (hp : ¬ (itemAt (ensuredInit env) j).guideline_path = "")
    (hr : readableAt env.ext.fs0 (itemAt (ensuredInit env) j).guideline_path) :
    ∀ e ∈ (run_full_pipeline env).1.trace, isGCallAt j e = false := by
  have hne : ¬ (loadPhase env).status = [] := by
    intro hnil
    have hnil2 : ensuredInit env = [] := hnil
    rw [hnil2] at hlen
    exact absurd hlen (by simp)
  have hmig : afterMigration env = loadPhase env :=
    migrationPhase_noop env.ext (loadPhase env) hne
  have hc4 : C4P j (loadPhase env) := ⟨hg, hp, hr⟩
  have hlad : TraceRestrict (fun e => isGCallAt j e = false)
      (loadPhase env) (afterLadder1 env) := by
    show TraceRestrict _ (loadPhase env) (runLadder1 env.ext (afterMigration env)
      (unfinishedIdxs (afterMigration env).status))
    rw [hmig]
    exact runLadder1_noGCall env.ext j _ (loadPhase env) hc4
  by_cases hu : unfinishedIdxs (afterLadder1 env).status = []
  · have hlenC : j < (afterLadder1 env).status.length := by
      have ht := runLadder1_titles env.ext
        (unfinishedIdxs (afterMigration env).status) (afterMigration env)
      have h2 := map_title_length _ _ ht
      have h3 : (afterLadder1 env).status.length = (ensuredInit env).length := by
        show (runLadder1 env.ext (afterMigration env)
          (unfinishedIdxs (afterMigration env).status)).status.length = _
        rw [h2, hmig]
        rfl
      rw [h3]
      exact hlen
    have hcomp : is_unfinished (itemAt (afterLadder1 env).status j) = false := by
      cases hc : is_unfinished (itemAt (afterLadder1 env).status j) with
      | false => rfl
      | true =>
        have hmem : j ∈ unfinishedIdxs (afterLadder1 env).status :=
          (mem_unfinishedIdxs _ j).mpr ⟨hlenC, hc⟩
        rw [hu] at hmem
        exact absurd hmem (List.not_mem_nil j)
    rw [run_full_pipeline_proposes env hu]
    refine traceRestrict_all _ env _ (traceRestrict_trans _ _ _ _ hlad
      (traceRestrict_mono _ _ _ _ ?_
        (newTopicsPhase_avoid env.ext (afterLadder1 env) j hlenC hcomp)))
    intro e hna
    exact hna.1
  · rw [run_full_pipeline_stops env hu]
    exact traceRestrict_all _ env _ hlad

/-- A raw status entry whose guideline stage is done and which records a
readable artifact path, with the article stage still pending. -/
def rawC4 : RawItem :=
  { title := some "Solar", keyword := some ""
    guideline_generated := some true, blog_generated := some false
    images_generated := some false
    guideline_path := some "g.txt", blog_path := none, images := none }

/-- A filesystem holding just the guideline artifact. -/
def fsC4 : FS := fun p => if p = "g.txt" then FileState.content "text" else FileState.absent

/-- Environment for the C4 witness. -/
def envC4 : Env :=
  { statusLoad := StatusLoad.parsed [rawC4], ext := { idleExt with fs0 := fsC4 } }

/-- Witness for C4 at a concrete environment: guideline done with a
readable artifact, article still pending, so the run drafts without ever
calling the Guideline Expander. -/
theorem C4_no_regeneration_on_success_witness :
    (0 < (ensuredInit envC4).length ∧
      (itemAt (ensuredInit envC4) 0).guideline_generated = true ∧
      readableAt envC4.ext.fs0 (itemAt (ensuredInit envC4) 0).guideline_path) ∧
    List.countP (isGCallAt 0) (run_full_pipeline envC4).1.trace = 0 := by
  have h := C4_no_regeneration_on_success envC4 0 (by decide) rfl (by decide)
    ⟨"text", by decide⟩
  refine ⟨⟨by decide, rfl, ⟨"text", by decide⟩⟩, ?_⟩
  rw [List.countP_eq_zero]
  intro e he hcon
  rw [h e he] at hcon
  exact Bool.false_ne_true hcon

end AutoBlog
